import Mathlib

/-! Validation callbacks for a persistence layer.

A shallow embedding of the Go package `validations` (`callbacks.go`,
`validations.go`) and theorems about it.

Conventions of the embedding:

* A Go `string` is a Lean `String`.  The triggers and the pattern used by
  the code are ASCII, so searching characters and searching bytes agree on
  every string that is valid UTF-8.
* A Go `error` value is a `GoErr`, a sum over the dynamic types the code tells
  apart by type assertion.  A `nil` error is `none : Option GoErr`.
* A run-time panic is the `Except.error` of a `Panic`; a function that cannot
  panic returns its value directly.
* The libraries the package calls (the tag validator, the write pipeline, the
  schema reflection) are outside the repository.  What they hand to the code
  is data of the embedding: the outcome of the tag validator on an object, the
  errors a custom validator reports, the settings and the target of an
  operation.
-/

namespace validations

set_option linter.dupNamespace false

/-! ## Go runtime -/

/-- Run-time panics raised by the embedded code. -/
inductive Panic where
  /-- Indexing a slice outside its length, as in `submatch[1]` on `nil`. -/
  | indexOutOfRange
  /-- An unchecked type assertion `x.(T)` on a value whose dynamic type is not `T`. -/
  | interfaceConversion
  /-- Reading a field through a `nil` pointer, as in `stmt.Schema.PrimaryFields`
  when `stmt.Schema` is `nil`. -/
  | nilDereference
deriving DecidableEq, Repr

/-- Scan of `strings.Index`: the byte offset of the first occurrence of `substr`
in the remaining input, `off` bytes having been consumed, or `-1`. -/
def strings.indexFrom (substr : List Char) : List Char → Nat → Int
  | [], off => if substr.isPrefixOf [] then (off : Int) else -1
  | c :: cs, off =>
    if substr.isPrefixOf (c :: cs) then (off : Int)
    else strings.indexFrom substr cs (off + c.utf8Size)

/-- Go `strings.Index(s, substr)`: the index of the first instance of `substr`
in `s`, or `-1` if `substr` is not present in `s`. -/
def strings.Index (s substr : String) : Int :=
  strings.indexFrom substr.data s.data 0

/-- The pattern `\(([0-9]+)\|([0-9]+)\)` tried at the start of the input.  Each
`[0-9]+` is greedy and is followed by a character that is not a digit, so the
only run of digits that can match is the longest one.  On a match the result is
the matched text followed by the two groups. -/
def reg.matchAt : List Char → Option (List String)
  | [] => none
  | c :: r0 =>
    if c = '(' then
      let min := r0.takeWhile Char.isDigit
      match min, r0.dropWhile Char.isDigit with
      | _ :: _, b :: r1 =>
        if b = '|' then
          let max := r1.takeWhile Char.isDigit
          match max, r1.dropWhile Char.isDigit with
          | _ :: _, e :: _ =>
            if e = ')' then
              some [String.mk (('(' :: min) ++ ('|' :: max) ++ [')']), String.mk min, String.mk max]
            else none
          | _, _ => none
        else none
      | _, _ => none
    else none

/-- Leftmost match of the pattern in the input: `nil` (the empty list) when
there is none. -/
def reg.findFrom : List Char → List String
  | [] => []
  | c :: cs =>
    match reg.matchAt (c :: cs) with
    | some m => m
    | none => reg.findFrom cs

/-- Go `reg.FindSubmatch([]byte(s))` for `reg = \(([0-9]+)\|([0-9]+)\)`: the
leftmost match and its two groups, or `nil`. -/
def reg.FindSubmatch (s : String) : List String :=
  reg.findFrom s.data

/-- Go slice indexing `xs[i]`, which panics outside the length. -/
def index (xs : List String) (i : Nat) : Except Panic String :=
  match xs.get? i with
  | some x => .ok x
  | none => .error .indexOutOfRange

/-! ## Data model -/

/-- What the schema reflection reports for a value: the name of its declared
type and the textual form of each primary-key value, in declared order. -/
structure Schema where
  ModelType : String
  PrimaryFields : List String
deriving DecidableEq, Repr

/-- A value passed as `interface{}` resource: the object an error is about.
`schema` is `none` when the value cannot be parsed as a model. -/
structure Resource where
  schema : Option Schema
deriving DecidableEq, Repr

/-- Go `type Error struct`: a validation error that holds model, column and
error message. -/
structure Error where
  Resource : Resource
  Column : String
  Message : String
deriving DecidableEq, Repr

/-- Go `func (err Error) Error() string`: show error message. -/
def Error.Error (err : Error) : String :=
  err.Message

/-- A `govalidator.Error`: one failed rule of the tag validator.  `Name` is its
exported field `Name`; `message` is the text its `Error()` method returns. -/
structure GvError where
  Name : String
  message : String
deriving DecidableEq, Repr

/-- Go `err.Error()` of a `govalidator.Error`. -/
def GvError.Error (err : GvError) : String :=
  err.message

/-- A non-nil Go `error` value, by dynamic type. -/
inductive GoErr where
  /-- A `*Error` of this package, as built by `NewError`. -/
  | validation (e : Error)
  /-- A `govalidator.Error`. -/
  | leaf (e : GvError)
  /-- A `govalidator.Errors`, a slice of errors; `text` is what its `Error()`
  method returns. -/
  | composite (text : String) (children : List GoErr)
  /-- Any other error value, by the text of its `Error()` method.  In the
  position of a child of a `composite` this also stands for a `nil` entry. -/
  | other (text : String)

/-- Go `e.Error()` on an `error` value. -/
def GoErr.Error : GoErr → String
  | .validation e => e.Error
  | .leaf e => e.Error
  | .composite text _ => text
  | .other text => text

/-- Go `func NewError(resource interface{}, column, err string) error`:
generate a new error for a model's field. -/
def NewError (resource : Resource) (column err : String) : GoErr :=
  .validation { Resource := resource, Column := column, Message := err }

/-! ## Message normalizer -/

/-- Go `func formattedError(err govalidator.Error, resource interface{}) error`. -/
def formattedError (err : GvError) (resource : Resource) : Except Panic GoErr :=
  let message := err.Error
  let attrName := err.Name
  if strings.Index message "non zero value required" ≥ 0 then
    .ok (NewError resource attrName (attrName ++ " can't be blank"))
  else if strings.Index message "as length" ≥ 0 then
    let submatch := reg.FindSubmatch err.Error
    match index submatch 1 with
    | .error p => .error p
    | .ok min =>
      match index submatch 2 with
      | .error p => .error p
      | .ok max =>
        .ok (NewError resource attrName
          (attrName ++ " is the wrong length (should be " ++ min ++ "~" ++ max ++ " characters)"))
  else if strings.Index message "as numeric" ≥ 0 then
    .ok (NewError resource attrName (attrName ++ " is not a number"))
  else if strings.Index message "as email" ≥ 0 then
    .ok (NewError resource attrName (attrName ++ " is not a valid email address"))
  else
    .ok (NewError resource attrName message)

/-! ## Raw-failure flattener -/

/-- Go `e.(govalidator.Error)`, the unchecked assertion of the inner loop. -/
def assertLeaf : GoErr → Except Panic GvError
  | .leaf e => .ok e
  | _ => .error .interfaceConversion

/-- Inner loop of `flatValidatorErrors`: `for _, e := range errors` appending
`e.(govalidator.Error)` to `resultErrors`. -/
def flatInner : List GoErr → List GvError → Except Panic (List GvError)
  | [], resultErrors => .ok resultErrors
  | e :: rest, resultErrors =>
    match assertLeaf e with
    | .ok l => flatInner rest (resultErrors ++ [l])
    | .error p => .error p

/-- Outer loop of `flatValidatorErrors`: `for _, validatorError := range
validatorErrors.Errors()` with its two checked type assertions. -/
def flatOuter : List GoErr → List GvError → Except Panic (List GvError)
  | [], resultErrors => .ok resultErrors
  | validatorError :: rest, resultErrors =>
    let afterErrors :=
      match validatorError with
      | .composite _ errors => flatInner errors resultErrors
      | _ => .ok resultErrors
    match afterErrors with
    | .error p => .error p
    | .ok resultErrors1 =>
      match validatorError with
      | .leaf e => flatOuter rest (resultErrors1 ++ [e])
      | _ => flatOuter rest resultErrors1

/-- Go `func flatValidatorErrors(validatorErrors govalidator.Errors)
[]govalidator.Error`, on the children of the container. -/
def flatValidatorErrors (validatorErrors : List GoErr) : Except Panic (List GvError) :=
  flatOuter validatorErrors []

/-! ## Validation orchestrator -/

/-- A value stored in the settings of an operation, as far as `validate` tells
values apart: a Go `bool`, or a value of any other type. -/
inductive Value where
  | bool (b : Bool)
  | other
deriving DecidableEq, Repr

/-- A call `validate` makes into code outside the package, by the object it is
made on. -/
inductive Call where
  /-- The method `Validate(db)` of the interface `Validator`. -/
  | Validate (model : Resource)
  /-- The method `Validate(db) error` of the interface `ValidatorWithError`. -/
  | ValidateWithError (model : Resource)
  /-- The tag validator `govalidator.ValidateStruct(model)`. -/
  | ValidateStruct (model : Resource)
deriving DecidableEq, Repr

/-- An object handed to `runValidation`, with what the code outside the
package does on it.

* `validator`: `some reports` when the object implements `Validator`; `reports`
  are the non-nil errors its `Validate(db)` passes to `db.AddError`, in call
  order.
* `validatorWithError`: `some result` when the object implements
  `ValidatorWithError`; `result` is what its `Validate(db)` returns.
* `tagOk`, `tagErr`: the pair `govalidator.ValidateStruct(model)` returns.

A Go type has one method named `Validate`, so a value implements at most one of
the two interfaces; the two tests of `runValidation` are independent of each
other and the embedding keeps a field for each. -/
structure Object where
  resource : Resource
  validator : Option (List GoErr)
  validatorWithError : Option (Option GoErr)
  tagOk : Bool
  tagErr : Option GoErr

/-- The target of an operation, by `scope.Statement.ReflectValue.Kind()`. -/
inductive Target where
  /-- Kind `reflect.Slice` or `reflect.Array`, with the elements
  `ReflectValue.Index(i).Interface()`. -/
  | slice (elems : List Object)
  /-- Kind `reflect.Struct`, with `scope.Statement.Model`. -/
  | struct (Model : Object)
  /-- Any other kind. -/
  | other

/-- Modelled from the spec: the in-flight write operation (`*gorm.DB`) of the
host pipeline, which is outside the repository.  `Settings` are the
per-operation settings read by `Get`; `Error` is the error-accumulation
facility, the errors attached so far in attachment order, empty for a `nil`
error; `target` is the value being written; `calls` logs the calls made into
validators, in order. -/
structure DB where
  Settings : List (String × Value)
  Error : List GoErr
  target : Target
  calls : List Call

/-- Go `scope.Get(key)`: the value stored under `key`, if any. -/
def DB.Get (scope : DB) (key : String) : Option Value :=
  scope.Settings.lookup key

/-- Modelled from the spec: `scope.AddError(err)` of the host pipeline attaches
a non-nil error after those already attached and ignores a `nil` one. -/
def DB.AddError (scope : DB) (err : Option GoErr) : DB :=
  match err with
  | some e => { scope with Error := scope.Error ++ [e] }
  | none => scope

/-- Modelled from the spec: the rendered text of the operation's error, the
messages of the attached errors joined by `"; "` in attachment order. -/
def DB.message (scope : DB) : String :=
  "; ".intercalate (scope.Error.map GoErr.Error)

/-- The log entry of a call made into a validator. -/
def DB.call (scope : DB) (c : Call) : DB :=
  { scope with calls := scope.calls ++ [c] }

/-- Go `var skipValidations`. -/
def skipValidations : String := "validations:skip_validations"

/-- The calls `v.Validate(scope)` of a `Validator` makes to `scope.AddError`. -/
def addReports : List GoErr → DB → DB
  | [], scope => scope
  | e :: rest, scope => addReports rest (scope.AddError (some e))

/-- The loop `for _, err := range flatValidatorErrors(errors)` of
`runValidation`, registering `formattedError(err, model)` for each. -/
def addFormatted (model : Object) : List GvError → DB → Except Panic DB
  | [], scope => .ok scope
  | err :: rest, scope =>
    match formattedError err model.resource with
    | .ok e => addFormatted model rest (scope.AddError (some e))
    | .error p => .error p

/-- The closure `runValidation` of `validate`, from the state of the operation
when it is called to the state when it returns. -/
def runValidation (scope : DB) (model : Object) : Except Panic DB :=
  let scope1 :=
    match model.validator with
    | some reports => addReports reports (scope.call (.Validate model.resource))
    | none => scope
  let scope2 :=
    match model.validatorWithError with
    | some err => (scope1.call (.ValidateWithError model.resource)).AddError err
    | none => scope1
  let scope3 := scope2.call (.ValidateStruct model.resource)
  if model.tagOk then .ok scope3
  else
    match model.tagErr with
    | some (.composite _ errors) =>
      match flatValidatorErrors errors with
      | .ok flat => addFormatted model flat scope3
      | .error p => .error p
    | err => .ok (scope3.AddError err)

/-- The loop over `scope.Statement.ReflectValue.Index(i)` of `validate`. -/
def validateEach : List Object → DB → Except Panic DB
  | [], scope => .ok scope
  | model :: rest, scope =>
    match runValidation scope model with
    | .ok scope1 => validateEach rest scope1
    | .error p => .error p

/-- Go `func validate(scope *gorm.DB)`. -/
def validate (scope : DB) : Except Panic DB :=
  match scope.Get "gorm:update_column" with
  | some _ => .ok scope
  | none =>
    match scope.Get skipValidations with
    | some (.bool true) => .ok scope
    | some .other => .error .interfaceConversion
    | _ =>
      if scope.Error.isEmpty then
        match scope.target with
        | .slice elems => validateEach elems scope
        | .struct Model => runValidation scope Model
        | .other => .ok scope
      else .ok scope

/-! ## Error model: the label -/

/-- Go `strings.Join(elems, sep)`: the elements in order with `sep` between
each two. -/
def strings.Join : List String → String → String
  | [], _ => ""
  | [a], _ => a
  | a :: b :: rest, sep => a ++ sep ++ strings.Join (b :: rest) sep

/-- The loop of `Label` over `stmt.Schema.PrimaryFields`, appending the text
`fmt.Sprint(v)` of each primary-key value to `vars`. -/
def labelVars : List String → List String → List String
  | [], vars => vars
  | v :: rest, vars => labelVars rest (vars ++ [v])

/-- The part of a `gorm.Statement` that `Label` uses: `DB`, the pointer to the
operation the statement belongs to, and `Schema`, the parsed schema.  Both are
`nil` in the zero value `gorm.Statement{}`. -/
structure Statement where
  DB : Option DB
  Schema : Option Schema

/-- Go `stmt.Parse(value)` of the host library, which is outside the
repository: it reads the schema cache and the naming strategy through
`stmt.DB`, so it panics when `stmt.DB` is `nil`; otherwise it stores what the
schema reflection reports for the value, leaving `Schema` `nil` for a value
that cannot be parsed. -/
def Statement.Parse (stmt : Statement) (value : Resource) : Except Panic Statement :=
  match stmt.DB with
  | none => .error .nilDereference
  | some _ => .ok { stmt with Schema := value.schema }

/-- Go `func (err Error) Label() string`: a label including model type, primary
key and column name.  The statement it parses the resource with is the zero
value `gorm.Statement{}`; the error `Parse` returns is dropped, and reading
the fields of a `nil` `stmt.Schema` panics. -/
def Error.Label (err : validations.Error) : Except Panic String :=
  let stmt : Statement := { DB := none, Schema := none }
  match stmt.Parse err.Resource with
  | .error p => .error p
  | .ok stmt1 =>
    match stmt1.Schema with
    | none => .error .nilDereference
    | some schema =>
      let vars := labelVars schema.PrimaryFields []
      .ok (schema.ModelType ++ "_" ++ strings.Join vars "::" ++ "_" ++ err.Column)

/-! ## Hook registration -/

/-- The functions registered as callbacks, as far as the package tells them
apart: its own `validate`, or a function of the host. -/
inductive Handler where
  | validate
  | host (id : String)
deriving DecidableEq, Repr

/-- A registered callback: its name, the name of the callback it is placed
before, and the function it runs. -/
structure Callback where
  name : String
  before : String
  handler : Handler
deriving DecidableEq, Repr

/-- Modelled from the spec: the callbacks of one lifecycle phase of the host
write pipeline, which is outside the repository, in registration order.  The
host does not guard against a name registered before: a phase may hold several
callbacks of one name. -/
structure Processor where
  callbacks : List Callback
deriving DecidableEq, Repr

/-- Modelled from the spec: `p.Get(name)`, the function of the callback
registered last under `name` in the phase, `nil` when there is none. -/
def Processor.Get (p : Processor) (name : String) : Option Handler :=
  match p.callbacks.reverse.find? (fun d => d.name == name) with
  | some d => some d.handler
  | none => none

/-- Modelled from the spec: `p.Before(before).Register(name, fn)`, which adds
the callback to the phase after those already registered, whatever their
names. -/
def Processor.Register (p : Processor) (c : Callback) : Processor :=
  { callbacks := p.callbacks ++ [c] }

/-- Modelled from the spec: the registry `db.Callback()` of the host write
pipeline, with the two phases the package registers on. -/
structure Callbacks where
  Create : Processor
  Update : Processor
deriving DecidableEq, Repr

/-- Go `func RegisterCallbacks(db *gorm.DB)`: register callback into GORM DB,
on the registry `callback := db.Callback()`. -/
def RegisterCallbacks (callback : Callbacks) : Callbacks :=
  let callback1 : Callbacks :=
    if callback.Create.Get "validations:validate" = none then
      { Create := callback.Create.Register
          (Callback.mk "validations:validate" "gorm:before_create" Handler.validate)
        Update := callback.Update }
    else callback
  if callback1.Update.Get "validations:validate" = none then
    { Create := callback1.Create
      Update := callback1.Update.Register
        (Callback.mk "validations:validate" "gorm:before_update" Handler.validate) }
  else callback1

/-! ## Specification vocabulary -/

/-- The string `s` contains `substr` as a contiguous substring. -/
def strings.Contains (s substr : String) : Prop :=
  substr.data <:+: s.data

/-- A decimal number: a non-empty string of the digits `0` to `9`. -/
def isDecimal (s : String) : Prop :=
  s.data ≠ [] ∧ ∀ c ∈ s.data, c.isDigit = true

/-- The string `s` contains a parenthesized pair of decimal numbers
`(a|b)`. -/
def hasPair (s : String) : Prop :=
  ∃ (pre post : List Char) (a b : String), isDecimal a ∧ isDecimal b ∧
    s.data = pre ++ ('(' :: a.data ++ '|' :: b.data ++ ')' :: post)

/-- The errors the no-result `Validate` capability of an object reports; none
when the object does not have the capability. -/
def Object.reported (model : Object) : List GoErr :=
  match model.validator with
  | some reports => reports
  | none => []

/-- The non-nil failure the error-returning `Validate` capability of an object
returns; none when it returns `nil` or the object does not have the
capability. -/
def Object.returned (model : Object) : List GoErr :=
  match model.validatorWithError with
  | some (some err) => [err]
  | _ => []

/-- The calls into validators that validating one object consists of: each
capability the object has, then the tag validator. -/
def Object.calls (model : Object) : List Call :=
  (match model.validator with
    | some _ => [Call.Validate model.resource]
    | none => [])
  ++ (match model.validatorWithError with
    | some _ => [Call.ValidateWithError model.resource]
    | none => [])
  ++ [Call.ValidateStruct model.resource]

/-- The operation carries no skip condition: neither the column-level-update
marker nor the skip-validation setting with value true (nor a value that is not
a boolean). -/
def DB.notSkipped (scope : DB) : Prop :=
  scope.Get "gorm:update_column" = none ∧
  (scope.Get skipValidations = none ∨ scope.Get skipValidations = some (.bool false))

/-- The state of an operation after one object has been validated on it,
registering `errs`. -/
def DB.validated (scope : DB) (model : Object) (errs : List GoErr) : DB :=
  { scope with Error := scope.Error ++ errs, calls := scope.calls ++ model.calls }

/-- The number of callbacks a phase holds under `name`. -/
def Processor.entries (p : Processor) (name : String) : Nat :=
  (p.callbacks.map Callback.name).count name

/-- A child of a failure container as the flattener expects it: a leaf, or a
container of leaves. -/
inductive Child where
  | leaf (e : GvError)
  | group (text : String) (leaves : List GvError)

/-- The error value of such a child. -/
def Child.toErr : Child → GoErr
  | .leaf e => .leaf e
  | .group text leaves => .composite text (leaves.map GoErr.leaf)

/-- The leaves of such a child, left to right: the leaf itself, or the children
of the nested container in order. -/
def Child.leaves : Child → List GvError
  | .leaf e => [e]
  | .group _ leaves => leaves

/-! ## Concrete inputs -/

/-- A `User` record that has not been saved yet. -/
def user : Resource :=
  { schema := some { ModelType := "User", PrimaryFields := ["0"] } }

/-- An operation that writes `target`, with no settings and no error. -/
def freshOperation (target : Target) : DB :=
  { Settings := [], Error := [], target := target, calls := [] }

/-- The failure of the rule `required` on an empty field `Name`. -/
def nameBlank : GvError :=
  { Name := "Name", message := "Name: non zero value required" }

/-- The failure of the rule `numeric` on a field `SecurePassword` whose value
is "has length". -/
def passwordHasLength : GvError :=
  { Name := "SecurePassword",
    message := "SecurePassword: has length does not validate as numeric" }

/-- A `User` with an empty `Name` and the `SecurePassword` "has length": its
`Validate` method reports nothing and the tag validator reports the two
failures in one container. -/
def userHasLength : Object :=
  { resource := user
    validator := some []
    validatorWithError := none
    tagOk := false
    tagErr := some (.composite
      "Name: non zero value required;SecurePassword: has length does not validate as numeric"
      [.leaf nameBlank, .leaf passwordHasLength]) }

/-- A `User` with an empty `Name` only. -/
def userBlank : Object :=
  { resource := user
    validator := some []
    validatorWithError := none
    tagOk := false
    tagErr := some (.composite "Name: non zero value required" [.leaf nameBlank]) }

/-- A record without custom validators on which the tag validator reports
failure with a container that holds one error that is neither a
`govalidator.Error` nor a `govalidator.Errors`. -/
def unsupportedField : Object :=
  { resource := { schema := some { ModelType := "Profile", PrimaryFields := ["0"] } }
    validator := none
    validatorWithError := none
    tagOk := false
    tagErr := some (.composite "unsupported type: map[int]string"
      [.other "unsupported type: map[int]string"]) }

/-- The same record, the tag validator reporting failure with an empty
container. -/
def emptyFailure : Object :=
  { unsupportedField with tagErr := some (.composite "" []) }

/-- The same record, the tag validator reporting failure with a `nil` error. -/
def nilFailure : Object :=
  { unsupportedField with tagErr := none }

/-- A `Language` record with code "invalid": its `Validate` method returns an
error and the tag validator reports no failure. -/
def invalidLanguage : Object :=
  { resource := { schema := some { ModelType := "Language", PrimaryFields := ["0"] } }
    validator := none
    validatorWithError := some (some (NewError
      { schema := some { ModelType := "Language", PrimaryFields := ["0"] } }
      "Code" "invalid language"))
    tagOk := true
    tagErr := none }

/-- The failure of the rule `length(6|20)` on a field `Password` whose value is
"123". -/
def passwordShort : GvError :=
  { Name := "Password", message := "Password: 123 does not validate as length(6|20)" }

/-- A `User` named "invalid" with the `Password` "123": its `Validate` method
reports "invalid user name" and the tag validator reports the short
password. -/
def invalidUser : Object :=
  { resource := user
    validator := some [NewError user "Name" "invalid user name"]
    validatorWithError := none
    tagOk := false
    tagErr := some (.composite "Password: 123 does not validate as length(6|20)"
      [.leaf passwordShort]) }

/-- A pointer to a pointer to a record: the tag validator fails on it with an
error of its own, not a validation failure. -/
def notAStruct : Object :=
  { resource := user
    validator := none
    validatorWithError := none
    tagOk := false
    tagErr := some (.other "function only accepts structs; got ptr") }

/-- An operation that writes the invalid `userBlank` with the skip-validation
setting set to true. -/
def skippedOperation : DB :=
  { Settings := [(skipValidations, .bool true)], Error := [], target := .struct userBlank,
    calls := [] }

/-- An operation that updates a column of the invalid `userBlank`: it carries
the column-level-update marker. -/
def columnUpdate : DB :=
  { Settings := [("gorm:update_column", .bool true)], Error := [],
    target := .struct userBlank, calls := [] }

/-- An operation on the invalid `userBlank` that already failed in an earlier
stage of the write. -/
def failedOperation : DB :=
  { Settings := [], Error := [.other "record not found"], target := .struct userBlank,
    calls := [] }

/-- An operation on the invalid `userBlank` that already failed in an earlier
stage of the write and whose skip-validation setting was stored as a text, not
as a boolean. -/
def illTypedOperation : DB :=
  { Settings := [(skipValidations, .other)], Error := [.other "record not found"],
    target := .struct userBlank, calls := [] }

/-- A `User` whose only failure is the `SecurePassword` "has length": its
`Validate` method reports nothing and the tag validator reports the one failure
in a container. -/
def userOnlyHasLength : Object :=
  { resource := user
    validator := some []
    validatorWithError := none
    tagOk := false
    tagErr := some (.composite "SecurePassword: has length does not validate as numeric"
      [.leaf passwordHasLength]) }

/-- The failure of the rule `required` on the field `Street` of the address of
the company of a user. -/
def streetBlank : GvError :=
  { Name := "Street", message := "Company.Address.Street: non zero value required" }

/-- The children of the failure the tag validator reports for a `User` whose
`Company` holds an `Address` with an empty `Street`: the container of the field
`Company`, which holds the container of the field `Address`, which holds the
leaf. -/
def nestedTwice : List GoErr :=
  [.composite "Company.Address.Street: non zero value required"
    [.composite "Company.Address.Street: non zero value required" [.leaf streetBlank]]]

/-- A `User` whose tag validator reports `nestedTwice`. -/
def userNestedCompany : Object :=
  { resource := user
    validator := some []
    validatorWithError := none
    tagOk := false
    tagErr := some (.composite "Company.Address.Street: non zero value required" nestedTwice) }

/-- The create phase of a host pipeline before the package registers on it. -/
def hostCreate : Processor :=
  { callbacks :=
      [{ name := "gorm:begin_transaction", before := "", handler := .host "BeginTransaction" },
       { name := "gorm:before_create", before := "", handler := .host "BeforeCreate" },
       { name := "gorm:create", before := "", handler := .host "Create" }] }

/-- The update phase of a host pipeline before the package registers on it. -/
def hostUpdate : Processor :=
  { callbacks :=
      [{ name := "gorm:begin_transaction", before := "", handler := .host "BeginTransaction" },
       { name := "gorm:before_update", before := "", handler := .host "BeforeUpdate" },
       { name := "gorm:update", before := "", handler := .host "Update" }] }

/-- The registry of a host pipeline before the package registers on it. -/
def hostCallbacks : Callbacks :=
  { Create := hostCreate, Update := hostUpdate }

/-- A registry on whose create phase the host registered two callbacks under
the name "validations:validate" before the package registers on it. -/
def duplicatedCallbacks : Callbacks :=
  { Create :=
      { callbacks :=
          [{ name := "gorm:before_create", before := "", handler := .host "BeforeCreate" },
           { name := "validations:validate", before := "gorm:before_create",
             handler := .host "first" },
           { name := "validations:validate", before := "gorm:before_create",
             handler := .host "second" }] }
    Update := hostUpdate }

/-! # Theorems -/

/-! ## Substring search -/

theorem strings.indexFrom_nonneg_iff (substr : List Char) :
    ∀ (s : List Char) (off : Nat), 0 ≤ strings.indexFrom substr s off ↔ substr <:+: s
  | [], off => by
    unfold strings.indexFrom
    by_cases h : substr.isPrefixOf [] = true
    · rw [if_pos h]
      have hp : substr <+: [] := List.isPrefixOf_iff_prefix.1 h
      exact ⟨fun _ => hp.isInfix, fun _ => Int.ofNat_nonneg off⟩
    · rw [if_neg h]
      constructor
      · intro hneg
        exact absurd hneg (by decide)
      · intro hin
        have he : substr = [] := List.eq_nil_of_infix_nil hin
        subst he
        exact absurd rfl h
  | c :: cs, off => by
    unfold strings.indexFrom
    by_cases h : substr.isPrefixOf (c :: cs) = true
    · rw [if_pos h]
      have hp : substr <+: c :: cs := List.isPrefixOf_iff_prefix.1 h
      exact ⟨fun _ => hp.isInfix, fun _ => Int.ofNat_nonneg off⟩
    · rw [if_neg h, strings.indexFrom_nonneg_iff substr cs (off + c.utf8Size), List.infix_cons_iff]
      constructor
      · intro hin
        exact Or.inr hin
      · rintro (hp | hin)
        · exact absurd (List.isPrefixOf_iff_prefix.2 hp) h
        · exact hin

theorem strings.Index_nonneg_iff (s substr : String) :
    strings.Index s substr ≥ 0 ↔ strings.Contains s substr :=
  strings.indexFrom_nonneg_iff substr.data s.data 0

/-! ## The branches of `formattedError` -/

theorem formattedError_of_required (err : GvError) (resource : Resource)
    (h : strings.Contains err.message "non zero value required") :
    formattedError err resource
      = .ok (NewError resource err.Name (err.Name ++ " can't be blank")) := by
  have h1 : strings.Index err.Error "non zero value required" ≥ 0 :=
    (strings.Index_nonneg_iff _ _).2 h
  unfold formattedError
  simp only [h1, if_true]

theorem formattedError_of_length (err : GvError) (resource : Resource)
    (hreq : ¬ strings.Contains err.message "non zero value required")
    (hlen : strings.Contains err.message "as length") :
    formattedError err resource =
      match index (reg.FindSubmatch err.message) 1 with
      | .error p => .error p
      | .ok min =>
        match index (reg.FindSubmatch err.message) 2 with
        | .error p => .error p
        | .ok max =>
          .ok (NewError resource err.Name
            (err.Name ++ " is the wrong length (should be " ++ min ++ "~" ++ max
              ++ " characters)")) := by
  have h1 : ¬ strings.Index err.Error "non zero value required" ≥ 0 :=
    fun h => hreq ((strings.Index_nonneg_iff _ _).1 h)
  have h2 : strings.Index err.Error "as length" ≥ 0 :=
    (strings.Index_nonneg_iff _ _).2 hlen
  unfold formattedError
  simp only [h1, h2, if_true, if_false]
  rfl

theorem formattedError_of_numeric (err : GvError) (resource : Resource)
    (hreq : ¬ strings.Contains err.message "non zero value required")
    (hlen : ¬ strings.Contains err.message "as length")
    (hnum : strings.Contains err.message "as numeric") :
    formattedError err resource
      = .ok (NewError resource err.Name (err.Name ++ " is not a number")) := by
  have h1 : ¬ strings.Index err.Error "non zero value required" ≥ 0 :=
    fun h => hreq ((strings.Index_nonneg_iff _ _).1 h)
  have h2 : ¬ strings.Index err.Error "as length" ≥ 0 :=
    fun h => hlen ((strings.Index_nonneg_iff _ _).1 h)
  have h3 : strings.Index err.Error "as numeric" ≥ 0 :=
    (strings.Index_nonneg_iff _ _).2 hnum
  unfold formattedError
  simp only [h1, h2, h3, if_true, if_false]

theorem formattedError_of_email (err : GvError) (resource : Resource)
    (hreq : ¬ strings.Contains err.message "non zero value required")
    (hlen : ¬ strings.Contains err.message "as length")
    (hnum : ¬ strings.Contains err.message "as numeric")
    (hmail : strings.Contains err.message "as email") :
    formattedError err resource
      = .ok (NewError resource err.Name (err.Name ++ " is not a valid email address")) := by
  have h1 : ¬ strings.Index err.Error "non zero value required" ≥ 0 :=
    fun h => hreq ((strings.Index_nonneg_iff _ _).1 h)
  have h2 : ¬ strings.Index err.Error "as length" ≥ 0 :=
    fun h => hlen ((strings.Index_nonneg_iff _ _).1 h)
  have h3 : ¬ strings.Index err.Error "as numeric" ≥ 0 :=
    fun h => hnum ((strings.Index_nonneg_iff _ _).1 h)
  have h4 : strings.Index err.Error "as email" ≥ 0 :=
    (strings.Index_nonneg_iff _ _).2 hmail
  unfold formattedError
  simp only [h1, h2, h3, h4, if_true, if_false]

theorem formattedError_of_unrecognized (err : GvError) (resource : Resource)
    (hreq : ¬ strings.Contains err.message "non zero value required")
    (hlen : ¬ strings.Contains err.message "as length")
    (hnum : ¬ strings.Contains err.message "as numeric")
    (hmail : ¬ strings.Contains err.message "as email") :
    formattedError err resource = .ok (NewError resource err.Name err.message) := by
  have h1 : ¬ strings.Index err.Error "non zero value required" ≥ 0 :=
    fun h => hreq ((strings.Index_nonneg_iff _ _).1 h)
  have h2 : ¬ strings.Index err.Error "as length" ≥ 0 :=
    fun h => hlen ((strings.Index_nonneg_iff _ _).1 h)
  have h3 : ¬ strings.Index err.Error "as numeric" ≥ 0 :=
    fun h => hnum ((strings.Index_nonneg_iff _ _).1 h)
  have h4 : ¬ strings.Index err.Error "as email" ≥ 0 :=
    fun h => hmail ((strings.Index_nonneg_iff _ _).1 h)
  unfold formattedError
  simp only [h1, h2, h3, h4, if_false]
  rfl

/-! ## The pattern of the length rule -/

theorem takeWhile_digits (a : List Char) (b : Char) (r : List Char)
    (ha : ∀ c ∈ a, c.isDigit = true) (hb : b.isDigit = false) :
    (a ++ b :: r).takeWhile Char.isDigit = a ∧ (a ++ b :: r).dropWhile Char.isDigit = b :: r := by
  induction a with
  | nil => simp [List.takeWhile, List.dropWhile, hb]
  | cons x xs ih =>
    have hx : x.isDigit = true := ha x (List.mem_cons_self x xs)
    have hxs := ih (fun c hc => ha c (List.mem_cons_of_mem x hc))
    simp [List.takeWhile, List.dropWhile, hx, hxs.1, hxs.2]

theorem reg.matchAt_pair (a b post : List Char) (ha0 : a ≠ []) (hb0 : b ≠ [])
    (ha : ∀ c ∈ a, c.isDigit = true) (hb : ∀ c ∈ b, c.isDigit = true) :
    reg.matchAt ('(' :: a ++ '|' :: b ++ ')' :: post)
      = some [String.mk (('(' :: a) ++ ('|' :: b) ++ [')']), String.mk a, String.mk b] := by
  have h1 := takeWhile_digits a '|' (b ++ ')' :: post) ha (by decide)
  have h2 := takeWhile_digits b ')' post hb (by decide)
  obtain ⟨x, xs, rfl⟩ := List.exists_cons_of_ne_nil ha0
  obtain ⟨y, ys, rfl⟩ := List.exists_cons_of_ne_nil hb0
  have e : '(' :: (x :: xs) ++ '|' :: (y :: ys) ++ ')' :: post
      = '(' :: ((x :: xs) ++ '|' :: ((y :: ys) ++ ')' :: post)) := by simp
  rw [e]
  unfold reg.matchAt
  simp only [if_true, h1.1, h1.2, h2.1, h2.2]

theorem reg.matchAt_some {s : List Char} {m : List String} (h : reg.matchAt s = some m) :
    ∃ a b post : List Char, a ≠ [] ∧ b ≠ [] ∧ (∀ c ∈ a, c.isDigit = true) ∧
      (∀ c ∈ b, c.isDigit = true) ∧ s = '(' :: a ++ '|' :: b ++ ')' :: post := by
  cases s with
  | nil => simp [reg.matchAt] at h
  | cons c r0 =>
    unfold reg.matchAt at h
    by_cases hc : c = '('
    · subst hc
      simp only [if_true] at h
      split at h
      · rename_i d ds b r1 hmin hdrop
        by_cases hb : b = '|'
        · subst hb
          simp only [if_true] at h
          split at h
          · rename_i d2 ds2 e r2 hmax hdrop2
            by_cases he : e = ')'
            · subst he
              refine ⟨r0.takeWhile Char.isDigit, r1.takeWhile Char.isDigit, r2, ?_, ?_, ?_, ?_, ?_⟩
              · rw [hmin]; exact List.cons_ne_nil _ _
              · rw [hmax]; exact List.cons_ne_nil _ _
              · intro c hc
                exact (List.mem_takeWhile_imp hc)
              · intro c hc
                exact (List.mem_takeWhile_imp hc)
              · have e1 := List.takeWhile_append_dropWhile Char.isDigit r0
                have e2 := List.takeWhile_append_dropWhile Char.isDigit r1
                rw [hdrop] at e1
                rw [hdrop2] at e2
                calc '(' :: r0 = '(' :: (r0.takeWhile Char.isDigit ++ '|' :: r1) := by rw [e1]
                  _ = '(' :: (r0.takeWhile Char.isDigit ++ '|' ::
                        (r1.takeWhile Char.isDigit ++ ')' :: r2)) := by rw [e2]
                  _ = _ := by simp
            · simp [he] at h
          · simp at h
        · simp [hb] at h
      · simp at h
    · simp [hc] at h

theorem prefix_of_append_eq {x : Char} :
    ∀ (w q t post : List Char), x ∉ w → q ++ x :: t = w ++ post → ∃ rest, q = w ++ rest
  | [], q, _, _, _, _ => ⟨q, rfl⟩
  | y :: w, [], t, post, hx, h => by
    simp only [List.nil_append, List.cons_append, List.cons.injEq] at h
    exact absurd (h.1 ▸ List.mem_cons_self y w) hx
  | y :: w, z :: q, t, post, hx, h => by
    simp only [List.cons_append, List.cons.injEq] at h
    obtain ⟨rest, hr⟩ := prefix_of_append_eq w q t post
      (fun hm => hx (List.mem_cons_of_mem y hm)) h.2
    exact ⟨rest, by rw [h.1, hr]; rfl⟩

theorem reg.findFrom_skip (s : List Char) :
    ∀ pre : List Char, (∀ c ∈ pre, c ≠ '(') → reg.findFrom (pre ++ s) = reg.findFrom s
  | [], _ => rfl
  | c :: pre, h => by
    have hc : c ≠ '(' := h c (List.mem_cons_self c pre)
    have ih := reg.findFrom_skip s pre (fun d hd => h d (List.mem_cons_of_mem c hd))
    simp only [List.cons_append, reg.findFrom, reg.matchAt, hc, if_false]
    exact ih

/-- The text before a blank holds no pair, so the search moves past it. -/
theorem reg.findFrom_append_blank (t : List Char) :
    ∀ p : List Char,
      (∀ pre a b post : List Char, a ≠ [] → b ≠ [] → (∀ c ∈ a, c.isDigit = true) →
        (∀ c ∈ b, c.isDigit = true) → p ≠ pre ++ ('(' :: a ++ '|' :: b ++ ')' :: post)) →
      reg.findFrom (p ++ ' ' :: t) = reg.findFrom (' ' :: t)
  | [], _ => rfl
  | c :: p, hno => by
    have ih := reg.findFrom_append_blank t p (fun pre a b post ha0 hb0 ha hb he =>
      hno (c :: pre) a b post ha0 hb0 ha hb (by rw [he]; rfl))
    have hnone : reg.matchAt (c :: p ++ ' ' :: t) = none := by
      cases hm : reg.matchAt (c :: p ++ ' ' :: t) with
      | none => rfl
      | some m =>
        exfalso
        obtain ⟨a, b, post, ha0, hb0, ha, hb, he⟩ := reg.matchAt_some hm
        have hsplit : c :: p ++ ' ' :: t = ('(' :: a ++ '|' :: b ++ [')']) ++ post := by
          rw [he]; simp
        have hblank : ' ' ∉ ('(' :: a ++ '|' :: b ++ [')']) := by
          intro hmem
          simp only [List.cons_append, List.mem_cons, List.mem_append, List.mem_singleton,
            or_assoc] at hmem
          rcases hmem with h | h | h | h | h
          · exact absurd h (by decide)
          · exact absurd (ha _ h) (by decide)
          · exact absurd h (by decide)
          · exact absurd (hb _ h) (by decide)
          · exact absurd h (by decide)
        obtain ⟨rest, hr⟩ := prefix_of_append_eq _ (c :: p) t post hblank hsplit
        exact hno [] a b rest ha0 hb0 ha hb (by rw [hr]; simp)
    show reg.findFrom (c :: (p ++ ' ' :: t)) = _
    rw [reg.findFrom]
    have hnone2 : reg.matchAt (c :: (p ++ ' ' :: t)) = none := hnone
    rw [hnone2]
    exact ih

/-- The search on the message of a violated `length(min|max)` rule whose field
name and value hold no pair finds the pair of the rule. -/
theorem reg.FindSubmatch_length (p min max : String)
    (hmin : isDecimal min) (hmax : isDecimal max) (hno : ¬ hasPair p) :
    reg.FindSubmatch (p ++ " does not validate as length(" ++ min ++ "|" ++ max ++ ")")
      = ["(" ++ min ++ "|" ++ max ++ ")", min, max] := by
  have hdata : (p ++ " does not validate as length(" ++ min ++ "|" ++ max ++ ")").data
      = p.data ++ ' ' :: ("does not validate as length".data
          ++ ('(' :: min.data ++ '|' :: max.data ++ ')' :: [])) := by
    simp [String.data_append]
  unfold reg.FindSubmatch
  rw [hdata, reg.findFrom_append_blank]
  · have hskip := reg.findFrom_skip ('(' :: min.data ++ '|' :: max.data ++ ')' :: [])
      (' ' :: "does not validate as length".data) (by decide)
    rw [List.cons_append] at hskip
    rw [hskip]
    have hm := reg.matchAt_pair min.data max.data [] hmin.1 hmax.1 hmin.2 hmax.2
    have hshape : '(' :: min.data ++ '|' :: max.data ++ [')']
        = '(' :: (min.data ++ '|' :: (max.data ++ [')'])) := by simp
    rw [hshape] at hm ⊢
    rw [reg.findFrom, hm]
    show [String.mk ('(' :: (min.data ++ '|' :: (max.data ++ [')']))), String.mk min.data,
      String.mk max.data] = ["(" ++ min ++ "|" ++ max ++ ")", min, max]
    have hw : String.mk ('(' :: (min.data ++ '|' :: (max.data ++ [')'])))
        = "(" ++ min ++ "|" ++ max ++ ")" := by
      apply String.ext
      simp [String.data_append]
    rw [hw]
  · intro pre a b post ha0 hb0 ha hb he
    exact hno ⟨pre, post, String.mk a, String.mk b, ⟨ha0, ha⟩, ⟨hb0, hb⟩, he⟩

theorem reg.matchAt_length {s : List Char} {m : List String} (h : reg.matchAt s = some m) :
    m.length = 3 := by
  obtain ⟨a, b, post, ha0, hb0, ha, hb, he⟩ := reg.matchAt_some h
  have hm := reg.matchAt_pair a b post ha0 hb0 ha hb
  rw [← he, h] at hm
  rw [Option.some.inj hm]
  rfl

/-- The search finds nothing exactly on the texts that hold no parenthesized
pair of decimal numbers. -/
theorem reg.FindSubmatch_eq_nil_iff (s : String) :
    reg.FindSubmatch s = [] ↔ ¬ hasPair s := by
  unfold reg.FindSubmatch
  constructor
  · rintro hnil ⟨pre, post, a, b, ha, hb, he⟩
    rw [he] at hnil
    clear he
    induction pre with
    | nil =>
      have hm := reg.matchAt_pair a.data b.data post ha.1 hb.1 ha.2 hb.2
      have hshape : [] ++ ('(' :: a.data ++ '|' :: b.data ++ ')' :: post)
          = '(' :: (a.data ++ '|' :: (b.data ++ ')' :: post)) := by simp
      have hshape2 : '(' :: a.data ++ '|' :: b.data ++ ')' :: post
          = '(' :: (a.data ++ '|' :: (b.data ++ ')' :: post)) := by simp
      rw [hshape2] at hm
      rw [hshape, reg.findFrom, hm] at hnil
      exact absurd hnil (by simp)
    | cons c pre ih =>
      rw [List.cons_append, reg.findFrom] at hnil
      cases hm : reg.matchAt (c :: (pre ++ ('(' :: a.data ++ '|' :: b.data ++ ')' :: post))) with
      | none =>
        rw [hm] at hnil
        exact ih hnil
      | some m =>
        rw [hm] at hnil
        have hl := reg.matchAt_length hm
        simp only at hnil
        rw [hnil] at hl
        exact absurd hl (by decide)
  · intro hno
    have key : ∀ p : List Char,
        (∀ pre a b post : List Char, a ≠ [] → b ≠ [] → (∀ c ∈ a, c.isDigit = true) →
          (∀ c ∈ b, c.isDigit = true) → p ≠ pre ++ ('(' :: a ++ '|' :: b ++ ')' :: post)) →
        reg.findFrom p = [] := by
      intro p
      induction p with
      | nil => intro _; rfl
      | cons c p ih =>
        intro hp
        rw [reg.findFrom]
        cases hm : reg.matchAt (c :: p) with
        | none =>
          exact ih (fun pre a b post ha0 hb0 ha hb he =>
            hp (c :: pre) a b post ha0 hb0 ha hb (by rw [he]; rfl))
        | some m =>
          obtain ⟨a, b, post, ha0, hb0, ha, hb, he⟩ := reg.matchAt_some hm
          exact absurd (by rw [he]; rfl) (hp [] a b post ha0 hb0 ha hb)
    exact key s.data (fun pre a b post ha0 hb0 ha hb he =>
      hno ⟨pre, post, String.mk a, String.mk b, ⟨ha0, ha⟩, ⟨hb0, hb⟩, he⟩)

/-- The domain of `formattedError`: it panics exactly on the messages that
contain "as length", do not contain "non zero value required" and hold no
parenthesized pair of decimal numbers. -/
theorem formattedError_panics_iff (err : GvError) (resource : Resource) :
    formattedError err resource = .error .indexOutOfRange ↔
      (¬ strings.Contains err.message "non zero value required" ∧
        strings.Contains err.message "as length" ∧ ¬ hasPair err.message) := by
  by_cases hreq : strings.Contains err.message "non zero value required"
  · rw [formattedError_of_required err resource hreq]
    simp [hreq]
  · by_cases hlen : strings.Contains err.message "as length"
    · rw [formattedError_of_length err resource hreq hlen]
      by_cases hp : hasPair err.message
      · obtain ⟨pre, post, a, b, ha, hb, he⟩ := hp
        have hne : reg.FindSubmatch err.message ≠ [] :=
          fun h => (reg.FindSubmatch_eq_nil_iff _).1 h ⟨pre, post, a, b, ha, hb, he⟩
        have h3 : (reg.FindSubmatch err.message).length = 3 := by
          unfold reg.FindSubmatch at hne ⊢
          generalize err.message.data = p at hne
          induction p with
          | nil => exact absurd rfl hne
          | cons c p ih =>
            rw [reg.findFrom] at hne ⊢
            cases hm : reg.matchAt (c :: p) with
            | none => rw [hm] at hne; exact ih hne
            | some m => exact reg.matchAt_length hm
        have hp : hasPair err.message := ⟨pre, post, a, b, ha, hb, he⟩
        match hf : reg.FindSubmatch err.message, h3 with
        | [w, x, y], _ =>
          simp [index, hreq, hlen, hp]
      · have hnil := (reg.FindSubmatch_eq_nil_iff _).2 hp
        simp [hnil, index, hreq, hlen, hp]
    · by_cases hnum : strings.Contains err.message "as numeric"
      · rw [formattedError_of_numeric err resource hreq hlen hnum]
        simp [hlen]
      · by_cases hmail : strings.Contains err.message "as email"
        · rw [formattedError_of_email err resource hreq hlen hnum hmail]
          simp [hlen]
        · rw [formattedError_of_unrecognized err resource hreq hlen hnum hmail]
          simp [hlen]

/-- What `formattedError` returns is a validation error on the given resource
whose Column is the name of the failure. -/
theorem formattedError_ok_validation {err : GvError} {resource : Resource} {e : GoErr}
    (h : formattedError err resource = .ok e) :
    ∃ m : String, e = .validation { Resource := resource, Column := err.Name, Message := m } := by
  by_cases hreq : strings.Contains err.message "non zero value required"
  · rw [formattedError_of_required err resource hreq] at h
    exact ⟨_, (Except.ok.inj h).symm⟩
  · by_cases hlen : strings.Contains err.message "as length"
    · rw [formattedError_of_length err resource hreq hlen] at h
      cases h1 : index (reg.FindSubmatch err.message) 1 with
      | error p => simp [h1] at h
      | ok min =>
        cases h2 : index (reg.FindSubmatch err.message) 2 with
        | error p => simp [h1, h2] at h
        | ok max =>
          simp only [h1, h2] at h
          exact ⟨_, (Except.ok.inj h).symm⟩
    · by_cases hnum : strings.Contains err.message "as numeric"
      · rw [formattedError_of_numeric err resource hreq hlen hnum] at h
        exact ⟨_, (Except.ok.inj h).symm⟩
      · by_cases hmail : strings.Contains err.message "as email"
        · rw [formattedError_of_email err resource hreq hlen hnum hmail] at h
          exact ⟨_, (Except.ok.inj h).symm⟩
        · rw [formattedError_of_unrecognized err resource hreq hlen hnum hmail] at h
          exact ⟨_, (Except.ok.inj h).symm⟩

theorem hasPair_paren {s : String} (h : hasPair s) : '(' ∈ s.data := by
  obtain ⟨pre, post, a, b, _, _, he⟩ := h
  rw [he]
  simp

/-! ## Message normalizer: the rules of the table -/

/-- C2: for every resource, every field name `f` and every raw message that
contains "non zero value required", `formattedError` returns the validation
error whose Message is `f` followed by " can't be blank", whose Column is `f`
and whose Resource is the given resource. -/
theorem formattedError_required (resource : Resource) (f raw : String)
    (h : strings.Contains raw "non zero value required") :
    formattedError { Name := f, message := raw } resource
      = .ok (.validation
          { Resource := resource, Column := f, Message := f ++ " can't be blank" }) :=
  formattedError_of_required { Name := f, message := raw } resource h

theorem formattedError_required_witness :
    strings.Contains "Name: non zero value required" "non zero value required" ∧
    formattedError { Name := "Name", message := "Name: non zero value required" } user
      = .ok (.validation
          { Resource := user, Column := "Name", Message := "Name" ++ " can't be blank" }) :=
  ⟨⟨"Name: ".data, [], rfl⟩,
    formattedError_required user "Name" "Name: non zero value required"
      ⟨"Name: ".data, [], rfl⟩⟩

/-- C3, as stated, fails: the message of a violated `length(6|20)` rule on a
field whose value is "(1|2)" is normalized with the pair of the value, and on a
field whose value holds "non zero value required" it is normalized as a blank
field. -/
theorem formattedError_length_value_counterexample :
    isDecimal "6" ∧ isDecimal "20" ∧
    formattedError
        { Name := "Password",
          message := "Password" ++ ": " ++ "(1|2)" ++ " does not validate as length("
            ++ "6" ++ "|" ++ "20" ++ ")" } user
      = .ok (.validation
          { Resource := user, Column := "Password",
            Message := "Password is the wrong length (should be 1~2 characters)" }) ∧
    formattedError
        { Name := "Password",
          message := "Password" ++ ": " ++ "non zero value required"
            ++ " does not validate as length(" ++ "6" ++ "|" ++ "20" ++ ")" } user
      = .ok (.validation
          { Resource := user, Column := "Password", Message := "Password can't be blank" }) ∧
    "Password is the wrong length (should be 1~2 characters)"
      ≠ "Password" ++ " is the wrong length (should be " ++ "6" ++ "~" ++ "20" ++ " characters)" ∧
    "Password can't be blank"
      ≠ "Password" ++ " is the wrong length (should be " ++ "6" ++ "~" ++ "20" ++ " characters)" :=
  ⟨⟨by decide, by decide⟩, ⟨by decide, by decide⟩, rfl, rfl, by decide, by decide⟩

/-- C3, amended: for every field name `f`, field value `v` and decimal numbers
`min`, `max`, when the raw message is the one emitted for a violated
`length(min|max)` rule, does not contain "non zero value required", and the
field name and value hold no parenthesized pair of decimal numbers,
`formattedError` returns `f` followed by " is the wrong length (should be
min~max characters)" with the rule's own `min` and `max`. -/
theorem formattedError_length_rule (resource : Resource) (f v min max : String)
    (hmin : isDecimal min) (hmax : isDecimal max)
    (hreq : ¬ strings.Contains
      (f ++ ": " ++ v ++ " does not validate as length(" ++ min ++ "|" ++ max ++ ")")
      "non zero value required")
    (hpair : ¬ hasPair (f ++ ": " ++ v)) :
    formattedError
        { Name := f,
          message := f ++ ": " ++ v ++ " does not validate as length(" ++ min ++ "|" ++ max
            ++ ")" } resource
      = .ok (.validation
          { Resource := resource, Column := f,
            Message := f ++ " is the wrong length (should be " ++ min ++ "~" ++ max
              ++ " characters)" }) := by
  have hlen : strings.Contains
      (f ++ ": " ++ v ++ " does not validate as length(" ++ min ++ "|" ++ max ++ ")")
      "as length" := by
    refine ⟨(f ++ ": " ++ v ++ " does not validate ").data,
      ("(" ++ min ++ "|" ++ max ++ ")").data, ?_⟩
    simp [String.data_append]
  have hfind := reg.FindSubmatch_length (f ++ ": " ++ v) min max hmin hmax hpair
  rw [formattedError_of_length _ resource hreq hlen]
  simp only [hfind]
  rfl

theorem formattedError_length_rule_witness :
    isDecimal "6" ∧ isDecimal "20" ∧
    ¬ strings.Contains
      ("Password" ++ ": " ++ "123" ++ " does not validate as length(" ++ "6" ++ "|" ++ "20" ++ ")")
      "non zero value required" ∧
    ¬ hasPair ("Password" ++ ": " ++ "123") ∧
    formattedError
        { Name := "Password",
          message := "Password" ++ ": " ++ "123" ++ " does not validate as length("
            ++ "6" ++ "|" ++ "20" ++ ")" } user
      = .ok (.validation
          { Resource := user, Column := "Password",
            Message := "Password" ++ " is the wrong length (should be " ++ "6" ++ "~" ++ "20"
              ++ " characters)" }) :=
  have hmin : isDecimal "6" := ⟨by decide, by decide⟩
  have hmax : isDecimal "20" := ⟨by decide, by decide⟩
  have hreq : ¬ strings.Contains
      ("Password" ++ ": " ++ "123" ++ " does not validate as length(" ++ "6" ++ "|" ++ "20" ++ ")")
      "non zero value required" :=
    fun h => absurd ((strings.Index_nonneg_iff _ _).2 h) (by decide)
  have hpair : ¬ hasPair ("Password" ++ ": " ++ "123") :=
    fun h => absurd (hasPair_paren h) (by decide)
  ⟨hmin, hmax, hreq, hpair,
    formattedError_length_rule user "Password" "123" "6" "20" hmin hmax hreq hpair⟩

/-- C4, as stated, fails: the message of a violated `numeric` rule on a field
whose non-numeric value holds "non zero value required" is normalized as a
blank field, and on a field whose non-numeric value holds "as length" and a
pair it is normalized as a wrong length. -/
theorem formattedError_numeric_value_counterexample :
    ¬ isDecimal "non zero value required" ∧ ¬ isDecimal "has length (3|5)" ∧
    formattedError
        { Name := "SecurePassword",
          message := "SecurePassword" ++ ": " ++ "non zero value required"
            ++ " does not validate as numeric" } user
      = .ok (.validation
          { Resource := user, Column := "SecurePassword",
            Message := "SecurePassword can't be blank" }) ∧
    formattedError
        { Name := "SecurePassword",
          message := "SecurePassword" ++ ": " ++ "has length (3|5)"
            ++ " does not validate as numeric" } user
      = .ok (.validation
          { Resource := user, Column := "SecurePassword",
            Message := "SecurePassword is the wrong length (should be 3~5 characters)" }) ∧
    "SecurePassword can't be blank" ≠ "SecurePassword" ++ " is not a number" ∧
    "SecurePassword is the wrong length (should be 3~5 characters)"
      ≠ "SecurePassword" ++ " is not a number" :=
  ⟨fun h => absurd (h.2 'n' (by decide)) (by decide),
    fun h => absurd (h.2 'h' (by decide)) (by decide),
    rfl, rfl, by decide, by decide⟩

/-- C4, amended: for every field name `f` and every field value `v` such that
the raw message emitted for a violated `numeric` rule contains neither "non
zero value required" nor "as length", `formattedError` returns `f` followed by
" is not a number". -/
theorem formattedError_numeric_rule (resource : Resource) (f v : String)
    (hreq : ¬ strings.Contains (f ++ ": " ++ v ++ " does not validate as numeric")
      "non zero value required")
    (hlen : ¬ strings.Contains (f ++ ": " ++ v ++ " does not validate as numeric")
      "as length") :
    formattedError
        { Name := f, message := f ++ ": " ++ v ++ " does not validate as numeric" } resource
      = .ok (.validation
          { Resource := resource, Column := f, Message := f ++ " is not a number" }) := by
  have hnum : strings.Contains (f ++ ": " ++ v ++ " does not validate as numeric")
      "as numeric" := by
    refine ⟨(f ++ ": " ++ v ++ " does not validate ").data, [], ?_⟩
    simp [String.data_append]
  exact formattedError_of_numeric
    { Name := f, message := f ++ ": " ++ v ++ " does not validate as numeric" } resource
    hreq hlen hnum

theorem formattedError_numeric_rule_witness :
    ¬ strings.Contains ("SecurePassword" ++ ": " ++ "AB123" ++ " does not validate as numeric")
      "non zero value required" ∧
    ¬ strings.Contains ("SecurePassword" ++ ": " ++ "AB123" ++ " does not validate as numeric")
      "as length" ∧
    formattedError
        { Name := "SecurePassword",
          message := "SecurePassword" ++ ": " ++ "AB123" ++ " does not validate as numeric" } user
      = .ok (.validation
          { Resource := user, Column := "SecurePassword",
            Message := "SecurePassword" ++ " is not a number" }) :=
  have hreq : ¬ strings.Contains
      ("SecurePassword" ++ ": " ++ "AB123" ++ " does not validate as numeric")
      "non zero value required" :=
    fun h => absurd ((strings.Index_nonneg_iff _ _).2 h) (by decide)
  have hlen : ¬ strings.Contains
      ("SecurePassword" ++ ": " ++ "AB123" ++ " does not validate as numeric") "as length" :=
    fun h => absurd ((strings.Index_nonneg_iff _ _).2 h) (by decide)
  ⟨hreq, hlen, formattedError_numeric_rule user "SecurePassword" "AB123" hreq hlen⟩

/-- C5: first match wins in table order.  For every field name `f` and raw
message that contains "as email" and none of "non zero value required", "as
length", "as numeric", `formattedError` returns `f` followed by " is not a
valid email address"; a raw message that contains both "as numeric" and "as
email" and neither of the first two triggers yields `f` followed by " is not a
number". -/
theorem formattedError_first_match (resource : Resource) (f raw : String) :
    (¬ strings.Contains raw "non zero value required" → ¬ strings.Contains raw "as length" →
      ¬ strings.Contains raw "as numeric" → strings.Contains raw "as email" →
      formattedError { Name := f, message := raw } resource
        = .ok (.validation
            { Resource := resource, Column := f,
              Message := f ++ " is not a valid email address" })) ∧
    (¬ strings.Contains raw "non zero value required" → ¬ strings.Contains raw "as length" →
      strings.Contains raw "as numeric" → strings.Contains raw "as email" →
      formattedError { Name := f, message := raw } resource
        = .ok (.validation
            { Resource := resource, Column := f, Message := f ++ " is not a number" })) :=
  ⟨fun hreq hlen hnum hmail =>
      formattedError_of_email { Name := f, message := raw } resource hreq hlen hnum hmail,
    fun hreq hlen hnum _ =>
      formattedError_of_numeric { Name := f, message := raw } resource hreq hlen hnum⟩

theorem formattedError_first_match_witness :
    formattedError
        { Name := "Email", message := "Email: aagmail.com does not validate as email" } user
      = .ok (.validation
          { Resource := user, Column := "Email",
            Message := "Email" ++ " is not a valid email address" }) ∧
    formattedError
        { Name := "Email", message := "Email: was numeric does not validate as email" } user
      = .ok (.validation
          { Resource := user, Column := "Email", Message := "Email" ++ " is not a number" }) :=
  ⟨(formattedError_first_match user "Email" "Email: aagmail.com does not validate as email").1
      (fun h => absurd ((strings.Index_nonneg_iff _ _).2 h) (by decide))
      (fun h => absurd ((strings.Index_nonneg_iff _ _).2 h) (by decide))
      (fun h => absurd ((strings.Index_nonneg_iff _ _).2 h) (by decide))
      ((strings.Index_nonneg_iff _ _).1 (by decide)),
    (formattedError_first_match user "Email" "Email: was numeric does not validate as email").2
      (fun h => absurd ((strings.Index_nonneg_iff _ _).2 h) (by decide))
      (fun h => absurd ((strings.Index_nonneg_iff _ _).2 h) (by decide))
      ((strings.Index_nonneg_iff _ _).1 (by decide))
      ((strings.Index_nonneg_iff _ _).1 (by decide))⟩

/-- C6: for every field name `f` and every raw message that contains none of
the four case-sensitive triggers, `formattedError` returns the validation error
whose Message is the raw message unchanged and whose Column is `f`. -/
theorem formattedError_passthrough (resource : Resource) (f raw : String)
    (hreq : ¬ strings.Contains raw "non zero value required")
    (hlen : ¬ strings.Contains raw "as length")
    (hnum : ¬ strings.Contains raw "as numeric")
    (hmail : ¬ strings.Contains raw "as email") :
    formattedError { Name := f, message := raw } resource
      = .ok (.validation { Resource := resource, Column := f, Message := raw }) :=
  formattedError_of_unrecognized { Name := f, message := raw } resource hreq hlen hnum hmail

theorem formattedError_passthrough_witness :
    formattedError { Name := "Email", message := "Email already be token" } user
      = .ok (.validation
          { Resource := user, Column := "Email", Message := "Email already be token" }) :=
  formattedError_passthrough user "Email" "Email already be token"
    (fun h => absurd ((strings.Index_nonneg_iff _ _).2 h) (by decide))
    (fun h => absurd ((strings.Index_nonneg_iff _ _).2 h) (by decide))
    (fun h => absurd ((strings.Index_nonneg_iff _ _).2 h) (by decide))
    (fun h => absurd ((strings.Index_nonneg_iff _ _).2 h) (by decide))

/-- C7, at the failing input: the message of a violated `numeric` rule on a
field whose value is "has length" contains "as length", does not contain "non
zero value required" and holds no parenthesized pair, and `formattedError`
panics on it with an index out of range instead of returning an error. -/
theorem formattedError_panics_without_pair (resource : Resource) :
    strings.Contains "Code: has length does not validate as numeric" "as length" ∧
    ¬ strings.Contains "Code: has length does not validate as numeric"
      "non zero value required" ∧
    reg.FindSubmatch "Code: has length does not validate as numeric" = [] ∧
    formattedError
        { Name := "Code", message := "Code: has length does not validate as numeric" } resource
      = .error .indexOutOfRange :=
  ⟨(strings.Index_nonneg_iff _ _).1 (by decide),
    fun h => absurd ((strings.Index_nonneg_iff _ _).2 h) (by decide),
    rfl, rfl⟩

/-! ## Validation orchestrator -/

theorem addReports_eq :
    ∀ (reports : List GoErr) (scope : DB),
      addReports reports scope = { scope with Error := scope.Error ++ reports }
  | [], scope => by simp [addReports]
  | e :: rest, scope => by
    simp [addReports, addReports_eq rest, DB.AddError]

theorem addFormatted_ok (model : Object) {flat : List GvError} {es : List GoErr}
    (h : List.Forall₂ (fun l e => formattedError l model.resource = .ok e) flat es) :
    ∀ scope : DB, addFormatted model flat scope = .ok { scope with Error := scope.Error ++ es } := by
  induction h with
  | nil => intro scope; simp [addFormatted]
  | cons hd _ ih =>
    intro scope
    simp [addFormatted, hd, ih, DB.AddError]

theorem flatInner_leaves :
    ∀ (ls acc : List GvError), flatInner (ls.map GoErr.leaf) acc = .ok (acc ++ ls)
  | [], acc => by simp [flatInner]
  | l :: ls, acc => by
    simp [flatInner, assertLeaf, flatInner_leaves ls]

theorem flatOuter_leaves :
    ∀ (ls acc : List GvError), flatOuter (ls.map GoErr.leaf) acc = .ok (acc ++ ls)
  | [], acc => by simp [flatOuter]
  | l :: ls, acc => by
    simp [flatOuter, flatOuter_leaves ls]

theorem flatValidatorErrors_leaves (ls : List GvError) :
    flatValidatorErrors (ls.map GoErr.leaf) = .ok ls := by
  simp [flatValidatorErrors, flatOuter_leaves]

/-- The state in which `runValidation` consults the outcome of the tag
validator: the custom validators have run and reported. -/
theorem runValidation_eq (scope : DB) (model : Object) :
    runValidation scope model =
      if model.tagOk then .ok (scope.validated model (model.reported ++ model.returned))
      else
        match model.tagErr with
        | some (.composite _ errors) =>
          match flatValidatorErrors errors with
          | .ok flat =>
            addFormatted model flat (scope.validated model (model.reported ++ model.returned))
          | .error p => .error p
        | err =>
          .ok ((scope.validated model (model.reported ++ model.returned)).AddError err) := by
  have hpre : ((match model.validatorWithError with
        | some err =>
          ((match model.validator with
            | some reports => addReports reports (scope.call (.Validate model.resource))
            | none => scope).call (.ValidateWithError model.resource)).AddError err
        | none =>
          (match model.validator with
            | some reports => addReports reports (scope.call (.Validate model.resource))
            | none => scope)).call (.ValidateStruct model.resource))
      = scope.validated model (model.reported ++ model.returned) := by
    cases scope with
    | mk settings errs target calls =>
      cases hv : model.validator with
      | none =>
        cases hw : model.validatorWithError with
        | none => simp [DB.validated, Object.reported, Object.returned, Object.calls, hv, hw, DB.call]
        | some r =>
          cases r with
          | none =>
            simp [DB.validated, Object.reported, Object.returned, Object.calls, hv, hw, DB.call,
              DB.AddError]
          | some e =>
            simp [DB.validated, Object.reported, Object.returned, Object.calls, hv, hw, DB.call,
              DB.AddError]
      | some reports =>
        cases hw : model.validatorWithError with
        | none =>
          simp [DB.validated, Object.reported, Object.returned, Object.calls, hv, hw, DB.call,
            addReports_eq]
        | some r =>
          cases r with
          | none =>
            simp [DB.validated, Object.reported, Object.returned, Object.calls, hv, hw, DB.call,
              DB.AddError, addReports_eq]
          | some e =>
            simp [DB.validated, Object.reported, Object.returned, Object.calls, hv, hw, DB.call,
              DB.AddError, addReports_eq]
  unfold runValidation
  simp only [hpre]

theorem validate_struct (scope : DB) (model : Object)
    (hskip : scope.notSkipped) (h0 : scope.Error = []) (ht : scope.target = .struct model) :
    validate scope = runValidation scope model := by
  obtain ⟨hcol, hs⟩ := hskip
  unfold validate
  rcases hs with hs | hs <;> simp [hcol, hs, h0, ht]

theorem validate_slice (scope : DB) (elems : List Object)
    (hskip : scope.notSkipped) (h0 : scope.Error = []) (ht : scope.target = .slice elems) :
    validate scope = validateEach elems scope := by
  obtain ⟨hcol, hs⟩ := hskip
  unfold validate
  rcases hs with hs | hs <;> simp [hcol, hs, h0, ht]

/-- On a container of leaves that `formattedError` returns on, one object
registers the normalized leaves in order, after what its custom validators
registered. -/
theorem runValidation_leaves (scope : DB) (model : Object) (text : String)
    (ls : List GvError) (es : List GoErr)
    (hok : model.tagOk = false)
    (htag : model.tagErr = some (.composite text (ls.map GoErr.leaf)))
    (hfmt : List.Forall₂ (fun l e => formattedError l model.resource = .ok e) ls es) :
    runValidation scope model
      = .ok (scope.validated model (model.reported ++ model.returned ++ es)) := by
  rw [runValidation_eq]
  simp only [hok, htag, flatValidatorErrors_leaves, addFormatted_ok model hfmt]
  simp [DB.validated, List.append_assoc]

/-- On an error-free operation without skip condition whose target is one
object without custom validator errors, a container of `n` leaves that
`formattedError` returns on makes `validate` register exactly the `n`
normalized errors in order, and the rendered message is their join. -/
theorem validate_leaves (scope : DB) (model : Object) (text : String)
    (ls : List GvError) (es : List GoErr)
    (hskip : scope.notSkipped) (h0 : scope.Error = []) (ht : scope.target = .struct model)
    (hrep : model.reported = []) (hret : model.returned = [])
    (hok : model.tagOk = false)
    (htag : model.tagErr = some (.composite text (ls.map GoErr.leaf)))
    (hfmt : List.Forall₂ (fun l e => formattedError l model.resource = .ok e) ls es) :
    ∃ scope', validate scope = .ok scope' ∧ scope'.Error = es ∧ es.length = ls.length ∧
      scope'.message = "; ".intercalate (es.map GoErr.Error) := by
  refine ⟨scope.validated model (model.reported ++ model.returned ++ es), ?_, ?_, ?_, ?_⟩
  · rw [validate_struct scope model hskip h0 ht]
    exact runValidation_leaves scope model text ls es hok htag hfmt
  · simp [DB.validated, h0, hrep, hret]
  · exact hfmt.length_eq.symm
  · simp [DB.message, DB.validated, h0, hrep, hret]

/-- C1, at the failing input: a `User` with an empty `Name` and the
`SecurePassword` "has length" fails two rules, the operation is error-free and
carries no settings, and `validate` panics with an index out of range while
normalizing the second failure, where each failure on its own is normalized or
panics as `formattedError` does. -/
theorem validate_panics_on_length_trigger :
    (freshOperation (.struct userHasLength)).notSkipped ∧
    userHasLength.reported = [] ∧ userHasLength.returned = [] ∧
    formattedError nameBlank user
      = .ok (.validation { Resource := user, Column := "Name", Message := "Name can't be blank" }) ∧
    formattedError passwordHasLength user = .error .indexOutOfRange ∧
    validate (freshOperation (.struct userHasLength)) = .error .indexOutOfRange :=
  ⟨⟨rfl, Or.inl rfl⟩, rfl, rfl, rfl, rfl, rfl⟩

/-- C8, at the failing input: the tag validator reports failure with a
container whose only child is not a validation failure, with an empty
container, or with a `nil` error; validation is not skipped, and `validate`
returns with no error registered on the operation. -/
theorem validate_registers_nothing_on_failure :
    (freshOperation (.struct unsupportedField)).notSkipped ∧
    (freshOperation (.struct unsupportedField)).Error = [] ∧
    unsupportedField.tagOk = false ∧ emptyFailure.tagOk = false ∧ nilFailure.tagOk = false ∧
    (validate (freshOperation (.struct unsupportedField))).map DB.Error = .ok [] ∧
    (validate (freshOperation (.struct emptyFailure))).map DB.Error = .ok [] ∧
    (validate (freshOperation (.struct nilFailure))).map DB.Error = .ok [] ∧
    (validate (freshOperation (.struct unsupportedField))).map DB.calls
      = .ok [Call.ValidateStruct unsupportedField.resource] :=
  ⟨⟨rfl, Or.inl rfl⟩, rfl, rfl, rfl, rfl, rfl, rfl, rfl, rfl⟩

/-- C9, as stated, fails: on a pointer to a pointer to a record, which has no
custom validator, the tag validator fails with its own error "function only
accepts structs; got ptr", and `validate` registers that error itself, as it
is; it is not a validation error, and no normalization returns it. -/
theorem validate_not_struct_counterexample :
    (freshOperation (.struct notAStruct)).notSkipped ∧
    (freshOperation (.struct notAStruct)).Error = [] ∧
    notAStruct.reported = [] ∧ notAStruct.returned = [] ∧ notAStruct.tagOk = false ∧
    (validate (freshOperation (.struct notAStruct))).map DB.Error
      = .ok [.other "function only accepts structs; got ptr"] ∧
    (∀ (l : GvError) (r : Resource),
      formattedError l r ≠ .ok (.other "function only accepts structs; got ptr")) ∧
    (validate (freshOperation (.struct notAStruct))).map DB.message
      = .ok "function only accepts structs; got ptr" :=
  ⟨⟨rfl, Or.inl rfl⟩, rfl, rfl, rfl, rfl, rfl,
    (fun l r h => by
      obtain ⟨m, hm⟩ := formattedError_ok_validation h
      cases hm),
    rfl⟩

/-- C9, amended: for every single object validated on an initially error-free
operation with no skip condition, `validate` calls the no-result `Validate`
capability (if the object has it), then the error-returning one (if the object
has it), then the tag validator, whatever the capabilities registered.  The
errors registered are, in order: the errors reported by the no-result
capability; the non-nil failure returned by the error-returning capability,
verbatim; and, when the tag validator reports failure, for a container whose
flattening and normalization return, the normalized errors in flattened order,
and for any other non-nil failure that failure itself, verbatim. -/
theorem validate_object_sequence (scope : DB) (model : Object)
    (hskip : scope.notSkipped) (h0 : scope.Error = []) (ht : scope.target = .struct model) :
    (model.tagOk = true →
      validate scope = .ok { scope with
        Error := model.reported ++ model.returned
        calls := scope.calls ++ model.calls }) ∧
    (∀ (text : String) (errors : List GoErr) (flat : List GvError) (es : List GoErr),
      model.tagOk = false → model.tagErr = some (.composite text errors) →
      flatValidatorErrors errors = .ok flat →
      List.Forall₂ (fun l e => formattedError l model.resource = .ok e) flat es →
      validate scope = .ok { scope with
        Error := model.reported ++ model.returned ++ es
        calls := scope.calls ++ model.calls }) ∧
    (∀ err : GoErr, model.tagOk = false → model.tagErr = some err →
      (∀ (text : String) (errors : List GoErr), err ≠ .composite text errors) →
      validate scope = .ok { scope with
        Error := model.reported ++ model.returned ++ [err]
        calls := scope.calls ++ model.calls }) ∧
    (model.tagOk = false → model.tagErr = none →
      validate scope = .ok { scope with
        Error := model.reported ++ model.returned
        calls := scope.calls ++ model.calls }) := by
  rw [validate_struct scope model hskip h0 ht, runValidation_eq]
  refine ⟨?_, ?_, ?_, ?_⟩
  · intro hok
    simp [hok, DB.validated, h0]
  · intro text errors flat es hok htag hflat hfmt
    simp only [hok, htag, hflat, addFormatted_ok model hfmt]
    simp [DB.validated, h0, List.append_assoc]
  · intro err hok htag hne
    cases err with
    | composite text errors => exact absurd rfl (hne text errors)
    | validation e => simp [hok, htag, DB.validated, DB.AddError, h0, List.append_assoc]
    | leaf e => simp [hok, htag, DB.validated, DB.AddError, h0, List.append_assoc]
    | other t => simp [hok, htag, DB.validated, DB.AddError, h0, List.append_assoc]
  · intro hok htag
    simp [hok, htag, DB.validated, DB.AddError, h0]

theorem validate_object_sequence_witness :
    (validate (freshOperation (.struct invalidLanguage))).map DB.Error
      = .ok [NewError invalidLanguage.resource "Code" "invalid language"] ∧
    (validate (freshOperation (.struct invalidUser))).map DB.Error
      = .ok [NewError user "Name" "invalid user name",
          NewError user "Password" "Password is the wrong length (should be 6~20 characters)"] ∧
    (validate (freshOperation (.struct invalidUser))).map DB.calls
      = .ok [Call.Validate user, Call.ValidateStruct user] ∧
    (validate (freshOperation (.struct notAStruct))).map DB.Error
      = .ok [.other "function only accepts structs; got ptr"] ∧
    (validate (freshOperation (.struct nilFailure))).map DB.Error = .ok [] :=
  ⟨by
      rw [(validate_object_sequence (freshOperation (.struct invalidLanguage)) invalidLanguage
        ⟨rfl, Or.inl rfl⟩ rfl rfl).1 rfl]
      rfl,
    by
      rw [(validate_object_sequence (freshOperation (.struct invalidUser)) invalidUser
        ⟨rfl, Or.inl rfl⟩ rfl rfl).2.1 "Password: 123 does not validate as length(6|20)"
        [.leaf passwordShort] [passwordShort]
        [NewError user "Password" "Password is the wrong length (should be 6~20 characters)"]
        rfl rfl rfl (List.Forall₂.cons rfl List.Forall₂.nil)]
      rfl,
    by
      rw [(validate_object_sequence (freshOperation (.struct invalidUser)) invalidUser
        ⟨rfl, Or.inl rfl⟩ rfl rfl).2.1 "Password: 123 does not validate as length(6|20)"
        [.leaf passwordShort] [passwordShort]
        [NewError user "Password" "Password is the wrong length (should be 6~20 characters)"]
        rfl rfl rfl (List.Forall₂.cons rfl List.Forall₂.nil)]
      rfl,
    by
      rw [(validate_object_sequence (freshOperation (.struct notAStruct)) notAStruct
        ⟨rfl, Or.inl rfl⟩ rfl rfl).2.2.1 (.other "function only accepts structs; got ptr")
        rfl rfl (fun _ _ h => by cases h)]
      rfl,
    by
      rw [(validate_object_sequence (freshOperation (.struct nilFailure)) nilFailure
        ⟨rfl, Or.inl rfl⟩ rfl rfl).2.2.2 rfl rfl]
      rfl⟩

/-- Validating the elements of a collection, each of which registers its own
errors whatever the state it is validated in, registers the concatenation of
those errors in index order and calls the validators element by element. -/
theorem validateEach_ok {elems : List Object} {ess : List (List GoErr)}
    (h : List.Forall₂
      (fun x es => ∀ s : DB, runValidation s x = .ok (s.validated x es)) elems ess) :
    ∀ scope : DB, validateEach elems scope = .ok { scope with
      Error := scope.Error ++ ess.flatten
      calls := scope.calls ++ (elems.map Object.calls).flatten } := by
  induction h with
  | nil => intro scope; simp [validateEach]
  | cons hd _ ih =>
    intro scope
    simp [validateEach, hd, ih, DB.validated, List.append_assoc]

/-- On a collection target of an error-free operation without skip condition,
when every element registers its own errors, `validate` registers their
concatenation in index order, and the operation ends with an error exactly
when some element registers one. -/
theorem validate_slice_ok (scope : DB) (elems : List Object) (ess : List (List GoErr))
    (hskip : scope.notSkipped) (h0 : scope.Error = []) (ht : scope.target = .slice elems)
    (h : List.Forall₂
      (fun x es => ∀ s : DB, runValidation s x = .ok (s.validated x es)) elems ess) :
    validate scope = .ok { scope with
      Error := ess.flatten
      calls := scope.calls ++ (elems.map Object.calls).flatten } ∧
    (ess.flatten ≠ [] ↔ ∃ es ∈ ess, es ≠ []) := by
  constructor
  · rw [validate_slice scope elems hskip h0 ht, validateEach_ok h scope, h0]
    rfl
  · simp [List.flatten_eq_nil_iff]

/-- C10, at the failing input: on the collection of a `User` whose
`SecurePassword` is "has length" followed by a `User` with an empty `Name`,
`validate` panics with an index out of range on the first element and the
second is never validated, where alone it registers "Name can't be blank"; and
on a collection whose only element fails the tag validator with an empty
container the operation ends without an error. -/
theorem validate_collection_stops_at_panic :
    (freshOperation (.slice [userHasLength, userBlank])).notSkipped ∧
    validate (freshOperation (.slice [userHasLength, userBlank])) = .error .indexOutOfRange ∧
    (validate (freshOperation (.slice [userBlank]))).map DB.message
      = .ok "Name can't be blank" ∧
    emptyFailure.tagOk = false ∧
    (validate (freshOperation (.slice [emptyFailure]))).map DB.Error = .ok [] :=
  ⟨⟨rfl, Or.inl rfl⟩, rfl, rfl, rfl, rfl⟩

/-! ## Validation orchestrator: when nothing is validated -/

/-- C11: for every operation and target, if the operation carries the
skip-validation setting with value true, or carries the column-level-update
marker, `validate` returns the operation as it received it: the errors are
unchanged and no call into a custom validator or the tag validator is made,
also when the target is invalid. -/
theorem validate_skipped (scope : DB)
    (h : (∃ v, scope.Get "gorm:update_column" = some v) ∨
      scope.Get skipValidations = some (.bool true)) :
    validate scope = .ok scope := by
  unfold validate
  rcases h with ⟨v, hv⟩ | hs
  · simp [hv]
  · cases hc : scope.Get "gorm:update_column" with
    | some v => rfl
    | none => simp [hs]

theorem validate_skipped_witness :
    userBlank.tagOk = false ∧
    skippedOperation.Get skipValidations = some (.bool true) ∧
    validate skippedOperation = .ok skippedOperation ∧
    columnUpdate.Get "gorm:update_column" = some (.bool true) ∧
    validate columnUpdate = .ok columnUpdate :=
  ⟨rfl, rfl, validate_skipped skippedOperation (Or.inr rfl), rfl,
    validate_skipped columnUpdate (Or.inl ⟨.bool true, rfl⟩)⟩

/-- C12, at the failing input: an operation that already carries an error and
whose skip-validation setting was stored as a text carries no
column-level-update marker, and `validate` does not return it with its error:
it panics on the unchecked assertion `result.(bool)`. -/
theorem validate_panics_on_ill_typed_skip :
    illTypedOperation.Error ≠ [] ∧
    illTypedOperation.Get "gorm:update_column" = none ∧
    illTypedOperation.Get skipValidations = some .other ∧
    validate illTypedOperation = .error .interfaceConversion ∧
    validate illTypedOperation ≠ .ok illTypedOperation :=
  ⟨by simp [illTypedOperation], rfl, rfl, rfl, fun h => by cases h⟩

/-- An operation that already carries an error and that carries the
column-level-update marker, or a skip-validation setting that is absent or a
boolean, is returned by `validate` as it was received, whatever the target: no
validator is called and the error is as it was. -/
theorem validate_existing_error (scope : DB) (h : scope.Error ≠ [])
    (hset : scope.Get "gorm:update_column" ≠ none ∨ scope.Get skipValidations ≠ some .other) :
    validate scope = .ok scope := by
  have hne : scope.Error.isEmpty = false := by
    cases he : scope.Error with
    | nil => exact absurd he h
    | cons e es => rfl
  unfold validate
  cases hc : scope.Get "gorm:update_column" with
  | some v => rfl
  | none =>
    cases hs : scope.Get skipValidations with
    | none => simp [hne]
    | some v =>
      cases v with
      | other =>
        rcases hset with hset | hset
        · exact absurd hc hset
        · exact absurd hs hset
      | bool b => cases b <;> simp [hne]

theorem validate_existing_error_example :
    failedOperation.Error ≠ [] ∧ userBlank.tagOk = false ∧
    failedOperation.Get skipValidations ≠ some .other ∧
    validate failedOperation = .ok failedOperation :=
  ⟨by simp [failedOperation], rfl, by decide,
    validate_existing_error failedOperation (by simp [failedOperation]) (Or.inr (by decide))⟩

/-- C13, at the failing input: the tag validator never reports a failure that
is not in a container; for a `User` whose only failure is the `SecurePassword`
"has length" it reports a container holding that one leaf, and `validate`
panics with an index out of range while normalizing it instead of registering
one error, where for a `User` whose only failure is an empty `Name` it
registers exactly the one normalized error. -/
theorem validate_single_failure_panics :
    (freshOperation (.struct userOnlyHasLength)).notSkipped ∧
    userOnlyHasLength.reported = [] ∧ userOnlyHasLength.returned = [] ∧
    userOnlyHasLength.tagErr
      = some (.composite "SecurePassword: has length does not validate as numeric"
          [.leaf passwordHasLength]) ∧
    formattedError passwordHasLength userOnlyHasLength.resource = .error .indexOutOfRange ∧
    validate (freshOperation (.struct userOnlyHasLength)) = .error .indexOutOfRange ∧
    (validate (freshOperation (.struct userBlank))).map DB.Error
      = .ok [.validation
          { Resource := user, Column := "Name", Message := "Name can't be blank" }] :=
  ⟨⟨rfl, Or.inl rfl⟩, rfl, rfl, rfl, rfl, rfl, rfl⟩

/-! ## Error model -/

/-- C14: for every resource `r`, column `c` and message `m`, `NewError(r, c, m)`
is the `Error` with Resource `r`, Column `c` and Message `m`, and its `Error()`
text is exactly `m`, with no field-name prefix or other decoration. -/
theorem NewError_fields (r : Resource) (c m : String) :
    NewError r c m = .validation { Resource := r, Column := c, Message := m } ∧
    (NewError r c m).Error = m ∧
    Error.Error { Resource := r, Column := c, Message := m } = m :=
  ⟨rfl, rfl, rfl⟩

/-- C15, at the failing inputs: for every `Error`, whatever its resource, and
so for one on a `User` with an unset primary key, `Label()` does not return a
label: the statement it parses the resource with is the zero value, whose `DB`
is `nil`, and `Parse` panics on it. -/
theorem Label_panics_on_zero_statement (err : Error) :
    Statement.Parse { DB := none, Schema := none } err.Resource = .error .nilDereference ∧
    err.Label = .error .nilDereference ∧
    Error.Label { Resource := user, Column := "Name", Message := "Name can't be blank" }
      = .error .nilDereference :=
  ⟨rfl, rfl, rfl⟩

/-- C19, at the failing input: two errors on a `User` that differ in the Column
get no label strings that could differ: `Label()` panics on both. -/
theorem Label_gives_no_identity :
    "Name" ≠ "Email" ∧
    Error.Label { Resource := user, Column := "Name", Message := "Name can't be blank" }
      = .error .nilDereference ∧
    Error.Label { Resource := user, Column := "Email", Message := "Email already be token" }
      = .error .nilDereference ∧
    Error.Label { Resource := user, Column := "Name", Message := "Name can't be blank" }
      = Error.Label
          { Resource := user, Column := "Email", Message := "Email already be token" } :=
  ⟨by decide, rfl, rfl, rfl⟩

/-! ## Hook registration -/

theorem Processor.Get_eq_none_iff (p : Processor) (name : String) :
    p.Get name = none ↔ p.entries name = 0 := by
  unfold Processor.Get Processor.entries
  rw [List.count_eq_zero]
  constructor
  · intro h hmem
    obtain ⟨d, hd, hname⟩ := List.mem_map.1 hmem
    cases hf : p.callbacks.reverse.find? (fun d => d.name == name) with
    | some d' => simp [hf] at h
    | none =>
      have hall := List.find?_eq_none.1 hf d (List.mem_reverse.2 hd)
      simp [hname] at hall
  · intro h
    cases hf : p.callbacks.reverse.find? (fun d => d.name == name) with
    | none => rfl
    | some d =>
      exfalso
      have hmem := List.mem_reverse.1 (List.mem_of_find?_eq_some hf)
      have hname := List.find?_some hf
      simp only [beq_iff_eq] at hname
      exact h (List.mem_map.2 ⟨d, hmem, hname⟩)

theorem Processor.entries_Register (p : Processor) (c : Callback) (name : String) :
    (p.Register c).entries name = p.entries name + (if c.name = name then 1 else 0) := by
  unfold Processor.entries Processor.Register
  by_cases h : c.name = name
  · simp [h]
  · simp [h, List.count_cons, List.count_append]

theorem Processor.Get_Register (p : Processor) (c : Callback) :
    (p.Register c).Get c.name = some c.handler := by
  unfold Processor.Get Processor.Register
  simp

/-- The two guards of `RegisterCallbacks`, phase by phase. -/
theorem RegisterCallbacks_eq (callback : Callbacks) :
    RegisterCallbacks callback =
      { Create :=
          if callback.Create.Get "validations:validate" = none then
            callback.Create.Register
              (Callback.mk "validations:validate" "gorm:before_create" Handler.validate)
          else callback.Create
        Update :=
          if callback.Update.Get "validations:validate" = none then
            callback.Update.Register
              (Callback.mk "validations:validate" "gorm:before_update" Handler.validate)
          else callback.Update } := by
  unfold RegisterCallbacks
  by_cases h1 : callback.Create.Get "validations:validate" = none <;>
    by_cases h2 : callback.Update.Get "validations:validate" = none <;>
    simp [h1, h2]

theorem RegisterCallbacks_registered (callback : Callbacks) :
    (RegisterCallbacks callback).Create.Get "validations:validate" ≠ none ∧
    (RegisterCallbacks callback).Update.Get "validations:validate" ≠ none := by
  have hc := Processor.Get_Register callback.Create
    (Callback.mk "validations:validate" "gorm:before_create" Handler.validate)
  have hu := Processor.Get_Register callback.Update
    (Callback.mk "validations:validate" "gorm:before_update" Handler.validate)
  rw [RegisterCallbacks_eq]
  constructor
  · by_cases h1 : callback.Create.Get "validations:validate" = none
    · simp [h1, hc]
    · simp [h1]
  · by_cases h2 : callback.Update.Get "validations:validate" = none
    · simp [h2, hu]
    · simp [h2]

theorem RegisterCallbacks_of_registered (callback : Callbacks)
    (h1 : callback.Create.Get "validations:validate" ≠ none)
    (h2 : callback.Update.Get "validations:validate" ≠ none) :
    RegisterCallbacks callback = callback := by
  rw [RegisterCallbacks_eq]
  simp [h1, h2]

theorem RegisterCallbacks_entries (callback : Callbacks) :
    (RegisterCallbacks callback).Create.entries "validations:validate"
      = max 1 (callback.Create.entries "validations:validate") ∧
    (RegisterCallbacks callback).Update.entries "validations:validate"
      = max 1 (callback.Update.entries "validations:validate") := by
  rw [RegisterCallbacks_eq]
  constructor
  · by_cases h1 : callback.Create.Get "validations:validate" = none
    · have h0 := (Processor.Get_eq_none_iff _ _).1 h1
      simp [h1, Processor.entries_Register, h0]
    · have h0 : callback.Create.entries "validations:validate" ≠ 0 :=
        fun h => h1 ((Processor.Get_eq_none_iff _ _).2 h)
      simp only [h1, if_false]
      omega
  · by_cases h2 : callback.Update.Get "validations:validate" = none
    · have h0 := (Processor.Get_eq_none_iff _ _).1 h2
      simp [h2, Processor.entries_Register, h0]
    · have h0 : callback.Update.entries "validations:validate" ≠ 0 :=
        fun h => h2 ((Processor.Get_eq_none_iff _ _).2 h)
      simp only [h2, if_false]
      omega

/-- C16, as stated, fails: on a registry whose create phase already holds two
callbacks named "validations:validate", calling `RegisterCallbacks` twice
leaves two such entries in the create phase, not exactly one. -/
theorem RegisterCallbacks_duplicates_counterexample :
    duplicatedCallbacks.Create.entries "validations:validate" = 2 ∧
    (RegisterCallbacks (RegisterCallbacks duplicatedCallbacks)).Create.entries
      "validations:validate" = 2 ∧
    (RegisterCallbacks (RegisterCallbacks duplicatedCallbacks)).Create
      = duplicatedCallbacks.Create :=
  ⟨by decide, by decide, by decide⟩

/-- C16, amended: `RegisterCallbacks` is idempotent on the callback registry:
for every registry, calling it twice leaves the same registry as calling it
once.  It adds its entry to a phase only when the phase holds none under the
name "validations:validate", the entry being `validate` placed before
"gorm:before_create", respectively "gorm:before_update"; so each of the two
phases ends with the larger of one and the number of such entries it held, and
with exactly one when it held at most one. -/
theorem RegisterCallbacks_idempotent (callback : Callbacks) :
    RegisterCallbacks (RegisterCallbacks callback) = RegisterCallbacks callback ∧
    (RegisterCallbacks callback).Create.entries "validations:validate"
      = max 1 (callback.Create.entries "validations:validate") ∧
    (RegisterCallbacks callback).Update.entries "validations:validate"
      = max 1 (callback.Update.entries "validations:validate") ∧
    (callback.Create.entries "validations:validate" ≤ 1 →
      (RegisterCallbacks (RegisterCallbacks callback)).Create.entries "validations:validate"
        = 1) ∧
    (callback.Update.entries "validations:validate" ≤ 1 →
      (RegisterCallbacks (RegisterCallbacks callback)).Update.entries "validations:validate"
        = 1) ∧
    (callback.Create.Get "validations:validate" = none →
      (RegisterCallbacks callback).Create.callbacks = callback.Create.callbacks ++
        [{ name := "validations:validate", before := "gorm:before_create",
           handler := .validate }]) ∧
    (callback.Update.Get "validations:validate" = none →
      (RegisterCallbacks callback).Update.callbacks = callback.Update.callbacks ++
        [{ name := "validations:validate", before := "gorm:before_update",
           handler := .validate }]) := by
  have hreg := RegisterCallbacks_registered callback
  have hidem := RegisterCallbacks_of_registered (RegisterCallbacks callback) hreg.1 hreg.2
  have hent := RegisterCallbacks_entries callback
  refine ⟨hidem, hent.1, hent.2, ?_, ?_, ?_, ?_⟩
  · intro h
    rw [hidem, hent.1]
    omega
  · intro h
    rw [hidem, hent.2]
    omega
  · intro h1
    rw [RegisterCallbacks_eq]
    simp [h1, Processor.Register]
  · intro h2
    rw [RegisterCallbacks_eq]
    simp [h2, Processor.Register]

theorem RegisterCallbacks_idempotent_witness :
    hostCallbacks.Create.entries "validations:validate" ≤ 1 ∧
    hostCallbacks.Update.entries "validations:validate" ≤ 1 ∧
    hostCallbacks.Create.Get "validations:validate" = none ∧
    hostCallbacks.Update.Get "validations:validate" = none ∧
    (RegisterCallbacks (RegisterCallbacks hostCallbacks)).Create.entries
      "validations:validate" = 1 ∧
    (RegisterCallbacks (RegisterCallbacks hostCallbacks)).Update.entries
      "validations:validate" = 1 ∧
    (RegisterCallbacks hostCallbacks).Create.callbacks = hostCallbacks.Create.callbacks ++
      [{ name := "validations:validate", before := "gorm:before_create",
         handler := .validate }] ∧
    (RegisterCallbacks hostCallbacks).Update.callbacks = hostCallbacks.Update.callbacks ++
      [{ name := "validations:validate", before := "gorm:before_update",
         handler := .validate }] ∧
    RegisterCallbacks (RegisterCallbacks hostCallbacks) = RegisterCallbacks hostCallbacks :=
  ⟨by decide, by decide, rfl, rfl,
    (RegisterCallbacks_idempotent hostCallbacks).2.2.2.1 (by decide),
    (RegisterCallbacks_idempotent hostCallbacks).2.2.2.2.1 (by decide),
    (RegisterCallbacks_idempotent hostCallbacks).2.2.2.2.2.1 rfl,
    (RegisterCallbacks_idempotent hostCallbacks).2.2.2.2.2.2 rfl,
    (RegisterCallbacks_idempotent hostCallbacks).1⟩

/-! ## Raw-failure flattener -/

theorem flatOuter_children :
    ∀ (cs : List Child) (acc : List GvError),
      flatOuter (cs.map Child.toErr) acc = .ok (acc ++ cs.flatMap Child.leaves)
  | [], acc => by simp [flatOuter]
  | .leaf e :: cs, acc => by
    simp [flatOuter, Child.toErr, Child.leaves, flatOuter_children cs]
  | .group text ls :: cs, acc => by
    simp [flatOuter, Child.toErr, Child.leaves, flatInner_leaves, flatOuter_children cs]

/-- C17: for every composite failure container whose immediate children are
each either a leaf or a composite container of leaves, `flatValidatorErrors`
returns exactly the leaves in left-to-right depth-first order, each leaf child
once and each nested container replaced by its children in order; the length
of the result is the total number of leaves. -/
theorem flatValidatorErrors_children (cs : List Child) :
    flatValidatorErrors (cs.map Child.toErr) = .ok (cs.flatMap Child.leaves) ∧
    (cs.flatMap Child.leaves).length = (cs.map (fun c => c.leaves.length)).sum := by
  constructor
  · simp [flatValidatorErrors, flatOuter_children]
  · induction cs with
    | nil => rfl
    | cons c cs ih => simp [List.flatMap_cons, ih]

theorem flatInner_cases :
    ∀ (es : List GoErr) (acc : List GvError),
      (flatInner es acc = .error .interfaceConversion ∧ ∃ g ∈ es, ∀ l, g ≠ GoErr.leaf l) ∨
      ((∃ r, flatInner es acc = .ok r) ∧ ∀ g ∈ es, ∃ l, g = GoErr.leaf l)
  | [], acc => Or.inr ⟨⟨acc, rfl⟩, fun g hg => absurd hg (List.not_mem_nil g)⟩
  | .leaf l :: rest, acc => by
    rcases flatInner_cases rest (acc ++ [l]) with ⟨he, g, hg, hn⟩ | ⟨⟨r, hr⟩, hall⟩
    · exact Or.inl ⟨by simp [flatInner, assertLeaf, he], g, List.mem_cons_of_mem _ hg, hn⟩
    · refine Or.inr ⟨⟨r, by simp [flatInner, assertLeaf, hr]⟩, ?_⟩
      intro g hg
      rcases List.mem_cons.1 hg with rfl | hg
      · exact ⟨l, rfl⟩
      · exact hall g hg
  | .validation e :: rest, acc =>
    Or.inl ⟨rfl, .validation e, List.mem_cons_self _ _, fun l h => by cases h⟩
  | .composite t gs :: rest, acc =>
    Or.inl ⟨rfl, .composite t gs, List.mem_cons_self _ _, fun l h => by cases h⟩
  | .other t :: rest, acc =>
    Or.inl ⟨rfl, .other t, List.mem_cons_self _ _, fun l h => by cases h⟩

theorem flatOuter_cases :
    ∀ (children : List GoErr) (acc : List GvError),
      (flatOuter children acc = .error .interfaceConversion ∧
        ∃ (text : String) (gs : List GoErr), GoErr.composite text gs ∈ children ∧
          ∃ g ∈ gs, ∀ l, g ≠ GoErr.leaf l) ∨
      ((∃ r, flatOuter children acc = .ok r) ∧
        ∀ (text : String) (gs : List GoErr), GoErr.composite text gs ∈ children →
          ∀ g ∈ gs, ∃ l, g = GoErr.leaf l)
  | [], acc => Or.inr ⟨⟨acc, rfl⟩, fun _ _ h => absurd h (List.not_mem_nil _)⟩
  | .leaf l :: rest, acc => by
    rcases flatOuter_cases rest (acc ++ [l]) with ⟨he, t, gs, hm, hg⟩ | ⟨⟨r, hr⟩, hall⟩
    · exact Or.inl ⟨by simp [flatOuter, he], t, gs, List.mem_cons_of_mem _ hm, hg⟩
    · refine Or.inr ⟨⟨r, by simp [flatOuter, hr]⟩, ?_⟩
      intro t gs hm
      rcases List.mem_cons.1 hm with h | hm
      · cases h
      · exact hall t gs hm
  | .validation e :: rest, acc => by
    rcases flatOuter_cases rest acc with ⟨he, t, gs, hm, hg⟩ | ⟨⟨r, hr⟩, hall⟩
    · exact Or.inl ⟨by simp [flatOuter, he], t, gs, List.mem_cons_of_mem _ hm, hg⟩
    · refine Or.inr ⟨⟨r, by simp [flatOuter, hr]⟩, ?_⟩
      intro t gs hm
      rcases List.mem_cons.1 hm with h | hm
      · cases h
      · exact hall t gs hm
  | .other x :: rest, acc => by
    rcases flatOuter_cases rest acc with ⟨he, t, gs, hm, hg⟩ | ⟨⟨r, hr⟩, hall⟩
    · exact Or.inl ⟨by simp [flatOuter, he], t, gs, List.mem_cons_of_mem _ hm, hg⟩
    · refine Or.inr ⟨⟨r, by simp [flatOuter, hr]⟩, ?_⟩
      intro t gs hm
      rcases List.mem_cons.1 hm with h | hm
      · cases h
      · exact hall t gs hm
  | .composite t0 gs0 :: rest, acc => by
    rcases flatInner_cases gs0 acc with ⟨he, g, hg, hn⟩ | ⟨⟨r0, hr0⟩, hall0⟩
    · exact Or.inl ⟨by simp [flatOuter, he], t0, gs0, List.mem_cons_self _ _, g, hg, hn⟩
    · rcases flatOuter_cases rest r0 with ⟨he, t, gs, hm, hg⟩ | ⟨⟨r, hr⟩, hall⟩
      · exact Or.inl ⟨by simp [flatOuter, hr0, he], t, gs, List.mem_cons_of_mem _ hm, hg⟩
      · refine Or.inr ⟨⟨r, by simp [flatOuter, hr0, hr]⟩, ?_⟩
        intro t gs hm
        rcases List.mem_cons.1 hm with h | hm
        · cases h
          exact hall0
        · exact hall t gs hm

/-- The domain of `flatValidatorErrors`: it panics exactly on the containers
that have a child container holding an error that is not a leaf, and returns on
all others. -/
theorem flatValidatorErrors_panics_iff (children : List GoErr) :
    (flatValidatorErrors children = .error .interfaceConversion ↔
      ∃ (text : String) (gs : List GoErr), GoErr.composite text gs ∈ children ∧
        ∃ g ∈ gs, ∀ l, g ≠ GoErr.leaf l) ∧
    ((∃ r, flatValidatorErrors children = .ok r) ↔
      ∀ (text : String) (gs : List GoErr), GoErr.composite text gs ∈ children →
        ∀ g ∈ gs, ∃ l, g = GoErr.leaf l) := by
  unfold flatValidatorErrors
  rcases flatOuter_cases children [] with ⟨he, t, gs, hm, g, hg, hn⟩ | ⟨⟨r, hr⟩, hall⟩
  · refine ⟨⟨fun _ => ⟨t, gs, hm, g, hg, hn⟩, fun _ => he⟩, ⟨?_, ?_⟩⟩
    · rintro ⟨r, hr⟩
      rw [he] at hr
      cases hr
    · intro hall
      obtain ⟨l, hl⟩ := hall t gs hm g hg
      exact absurd hl (hn l)
  · refine ⟨⟨?_, ?_⟩, ⟨fun _ => hall, fun _ => ⟨r, hr⟩⟩⟩
    · intro he
      rw [hr] at he
      cases he
    · rintro ⟨t, gs, hm, g, hg, hn⟩
      obtain ⟨l, hl⟩ := hall t gs hm g hg
      exact absurd hl (hn l)

/-- C18, at the failing input: on the failure of a `User` whose `Company` holds
an `Address` with an empty `Street`, a container whose child container itself
holds a container, `flatValidatorErrors` panics on the unchecked assertion of
the inner loop, and so does `validate`; a child container that holds an error
that is neither a leaf nor a container panics in the same way; a child of the
top container that is neither a leaf nor a container is skipped. -/
theorem flatValidatorErrors_panics_on_nested :
    flatValidatorErrors nestedTwice = .error .interfaceConversion ∧
    validate (freshOperation (.struct userNestedCompany)) = .error .interfaceConversion ∧
    flatValidatorErrors
        [.composite "unsupported type: map[int]string"
          [.other "unsupported type: map[int]string"]]
      = .error .interfaceConversion ∧
    flatValidatorErrors [.leaf nameBlank, .other "unsupported type: map[int]string"]
      = .ok [nameBlank] :=
  ⟨rfl, rfl, rfl, rfl⟩

end validations
